import Mathlib

/-!
# EvoSim blob genotype and body assembler: a verification development

Shallow embedding of `src/blob/geno_blob_builder.rs`, `src/blob/blob_builder.rs`
and `src/consts.rs` of the EvoSim repository.  `f32` scalars are modelled as
rationals (the algorithms only add, subtract, multiply by constants and
compare, so exact arithmetic over `ℚ` mirrors the control flow of the source;
float rounding is not modelled).  The thread-local random generator is
modelled as an oracle: three streams of outcomes (`gen_bool` results,
`gen_range` results, `choose` picks) consumed through counters.  A `gen_range`
outcome that falls outside the requested half-open interval is clamped to the
lower bound, so every oracle corresponds to a possible run of the source and
every run of the source corresponds to an oracle; universally quantified
theorems over oracles therefore cover every run of the source.
Rust panics are modelled by `Option`/`none` results.
-/

namespace EvoSim

/-! ## Constants from `src/consts.rs` -/

def MOTOR_STIFFNESS : ℚ := 10

def MOTOR_DAMPING : ℚ := 0

def ENABLE_CONTACTS : Bool := false

def GENO_MAX_DEPTH : Nat := 2

def DEFAULT_BLOCK_SIZE : ℚ × ℚ := (50, 50)

def RAND_NODE_NOT_NONE : ℚ := 9/10

def RAND_SIZE_SCALER : ℚ × ℚ := (1/2, 2)

/-- Stand-in for the `f32` constant `std::f32::consts::PI`.  The exact value
is irrelevant to every claim below (it only enters joint-limit fields, never a
geometric comparison); any positive rational works. -/
def PI : ℚ := 314159265/100000000

/-! ## `QuadTree<T>` (`geno_blob_builder.rs`, lines 447-523) -/

/-- Array-backed quad tree: `nodes` is a `Vec<Option<T>>`. -/
structure QuadTree (T : Type) where
  nodes : List (Option T)
  max_depth : Nat
deriving DecidableEq, Repr

namespace QuadTree

variable {T : Type}

/-- `QuadTree::new`: `capacity = usize::pow(4, max_depth) + 1`. -/
def new (T : Type) (max_depth : Nat) : QuadTree T :=
  { nodes := List.replicate (4 ^ max_depth + 1) none, max_depth := max_depth }

/-- `QuadTree::parent`. -/
def parent (_ : QuadTree T) (index : Nat) : Option Nat :=
  if index = 0 then none else some ((index - 1) / 4)

/-- `QuadTree::children`: `[4i+1, 4i+2, 4i+3, 4i+4]` (top, bottom, left, right). -/
def children (_ : QuadTree T) (index : Nat) : List Nat :=
  [4 * index + 1, 4 * index + 2, 4 * index + 3, 4 * index + 4]

/-- `QuadTree::depth`.  The source computes `(index as f64).log(4.0).floor() as u32`;
we model the intended value `⌊log₄ index⌋` (`Nat.log 4`), which also sends `0` to `0`
exactly as the `f64` cast chain does.  No claim depends on this value. -/
def depth (_ : QuadTree T) (index : Nat) : Nat :=
  Nat.log 4 index

/-- Canonical slot read: `t.nodes.get(i)` flattened, out-of-range reads as `Empty`. -/
def slot (t : QuadTree T) (i : Nat) : Option T :=
  (t.nodes[i]?).getD none

/-- Functional update of one slot (`tree.nodes[i] = v` after a bounds check). -/
def setSlot (t : QuadTree T) (i : Nat) (v : Option T) : QuadTree T :=
  { t with nodes := t.nodes.set i v }

/-- `QuadTree::is_leaf`: every child is out of range or `None`.  The source
guards the index before reading (`child_index >= self.nodes.len() || ...`),
so this operation is total. -/
def is_leaf (t : QuadTree T) (index : Nat) : Bool :=
  (t.children index).all fun c =>
    decide (t.nodes.length ≤ c) || (t.nodes.getD c none).isNone

/-- Rust `l[i] = v`: fails (panics) when `i` is out of range. -/
def writeIdx (l : List (Option T)) (i : Nat) (v : Option T) : Option (List (Option T)) :=
  if i < l.length then some (l.set i v) else none

/-- Recursive body of `QuadTree::clean_subtree`.  The source's recursion
terminates because children indices strictly exceed the node index and
recursive calls are guarded by `child_index < self.nodes.len()`; we make that
bound explicit with a fuel argument that the wrapper instantiates with the
node-array length (which dominates the recursion depth).  `none` models the
Rust index panic of the unchecked write `self.nodes[index] = None`. -/
def cleanSubtreeAux : Nat → List (Option T) → Nat → Option (List (Option T))
  | 0, _, _ => none
  | fuel + 1, nodes, index =>
    match writeIdx nodes index none with
    | none => none
    | some n0 =>
      match (if 4 * index + 1 < n0.length ∧ (n0.getD (4 * index + 1) none).isSome then
               cleanSubtreeAux fuel n0 (4 * index + 1) else some n0) with
      | none => none
      | some n1 =>
        match (if 4 * index + 2 < n1.length ∧ (n1.getD (4 * index + 2) none).isSome then
                 cleanSubtreeAux fuel n1 (4 * index + 2) else some n1) with
        | none => none
        | some n2 =>
          match (if 4 * index + 3 < n2.length ∧ (n2.getD (4 * index + 3) none).isSome then
                   cleanSubtreeAux fuel n2 (4 * index + 3) else some n2) with
          | none => none
          | some n3 =>
            match (if 4 * index + 4 < n3.length ∧ (n3.getD (4 * index + 4) none).isSome then
                     cleanSubtreeAux fuel n3 (4 * index + 4) else some n3) with
            | none => none
            | some n4 => some n4

/-- `QuadTree::clean_subtree`.  `none` models a panic: the very first statement
`self.nodes[index] = None` indexes without a bounds check. -/
def clean_subtree (t : QuadTree T) (index : Nat) : Option (QuadTree T) :=
  (cleanSubtreeAux t.nodes.length t.nodes index).map fun l => { t with nodes := l }

/-- One guarded child-cleaning step of `clean_subtree_without_self`
(`if child_index < self.nodes.len() && self.nodes[child_index].is_some()`). -/
def cswosStep (t : QuadTree T) (c : Nat) : Option (QuadTree T) :=
  if c < t.nodes.length ∧ (t.nodes.getD c none).isSome then t.clean_subtree c else some t

/-- `QuadTree::clean_subtree_without_self`: cleans each existing child's
subtree, leaving the node itself. -/
def clean_subtree_without_self (t : QuadTree T) (index : Nat) : Option (QuadTree T) :=
  (((cswosStep t (4 * index + 1)).bind fun t1 => cswosStep t1 (4 * index + 2)).bind
      fun t2 => cswosStep t2 (4 * index + 3)).bind
    fun t3 => cswosStep t3 (4 * index + 4)

end QuadTree

/-! ## Genotype payload (`geno_blob_builder.rs`, lines 404-445) -/

/-- `GenoNode`: limb geometry plus optional control identity (`nn_id`). -/
structure GenoNode where
  joint_limits : ℚ × ℚ
  size : ℚ × ℚ
  center : ℚ × ℚ
  nn_id : Option Nat
deriving DecidableEq, Repr

/-- `GenericGenoNode`: `Parent` is the parent-sentinel marker, `Child`
carries a limb. -/
inductive GenericGenoNode where
  | Parent
  | Child (node : GenoNode)
deriving DecidableEq, Repr

/-- `GenoNode::default()`. -/
def GenoNode.default : GenoNode :=
  { joint_limits := (-PI, PI), size := DEFAULT_BLOCK_SIZE, center := (0, 0), nn_id := none }

/-- `BlobGeno`. -/
structure BlobGeno where
  vec_tree : QuadTree GenericGenoNode
deriving DecidableEq, Repr

/-- `BlobGeno::default()`: an empty tree of depth `GENO_MAX_DEPTH`. -/
def BlobGeno.mkDefault : BlobGeno :=
  { vec_tree := QuadTree.new GenericGenoNode GENO_MAX_DEPTH }

/-! ## Occupancy regions and the overlap tests -/

/-- One occupancy record `[f32; 4] = [x_min, x_max, y_min, y_max]`. -/
structure Region where
  xmin : ℚ
  xmax : ℚ
  ymin : ℚ
  ymax : ℚ
deriving DecidableEq, Repr

/-- Axis-aligned box of a limb with the given `center` and half-extent `size`. -/
def boxOf (center size : ℚ × ℚ) : Region :=
  { xmin := center.1 - size.1, xmax := center.1 + size.1
    ymin := center.2 - size.2, ymax := center.2 + size.2 }

/-- The inclusive overlap test of generation-time `is_overlapped`
(`x_min <= region[1] && x_max >= region[0]`, same on y). -/
def inclOverlapTest (b r : Region) : Bool :=
  decide (b.xmin ≤ r.xmax ∧ b.xmax ≥ r.xmin) && decide (b.ymin ≤ r.ymax ∧ b.ymax ≥ r.ymin)

/-- The epsilon-shrunk tolerant overlap test of `is_valid`'s `is_overlapped`
(`x_min < region[1] - POSITION_EPSILON && x_max - POSITION_EPSILON > region[0]`,
same on y). -/
def tolOverlapTest (eps : ℚ) (b r : Region) : Bool :=
  decide (b.xmin < r.xmax - eps ∧ b.xmax - eps > r.xmin) &&
    decide (b.ymin < r.ymax - eps ∧ b.ymax - eps > r.ymin)

/-- Generation-time `is_overlapped` (`new_rand`, lines 168-188).  The source
loop pushes the candidate's box and returns `true` at the first overlapping
region, and pushes the box and returns `false` after the loop; in both cases
the returned list is the input list with the candidate's box appended. -/
def is_overlapped (center size : ℚ × ℚ) (occ : List Region) : Bool × List Region :=
  let b := boxOf center size
  (occ.any fun r => inclOverlapTest b r, occ ++ [b])

/-- `is_valid`'s inner `is_overlapped` (lines 319-341): same always-append
structure, tolerant test shrunk by `POSITION_EPSILON` (a constant of the
repository that is not under `src/`; modelled as the parameter `eps`). -/
def is_overlapped_eps (eps : ℚ) (center size : ℚ × ℚ) (occ : List Region) :
    Bool × List Region :=
  let b := boxOf center size
  (occ.any fun r => tolOverlapTest eps b r, occ ++ [b])

/-! ## The random oracle -/

/-- Outcome streams of `thread_rng()`: `gen_bool` results, `gen_range`
results and `choose` picks, consumed through per-stream counters. -/
structure RandSrc where
  bools : Nat → Bool
  vals : Nat → ℚ
  picks : Nat → Fin 4

/-- Stream counters. -/
structure RandState where
  bc : Nat
  vc : Nat
  pc : Nat
deriving DecidableEq, Repr

/-- `rng.gen_bool(p)`: the probability only biases the distribution; every
outcome is possible, so the model reads the next oracle Boolean. -/
def genBool (src : RandSrc) (_p : ℚ) (st : RandState) : Bool × RandState :=
  (src.bools st.bc, { st with bc := st.bc + 1 })

/-- `rng.gen_range(lo..hi)`: the next oracle value, clamped to the lower bound
when it falls outside `[lo, hi)`, so that the result always lies in the range
the source draws from (and every source draw is some oracle's value). -/
def genRange (src : RandSrc) (lo hi : ℚ) (st : RandState) : ℚ × RandState :=
  let v := src.vals st.vc
  (if lo ≤ v ∧ v < hi then v else lo, { st with vc := st.vc + 1 })

/-- `children.choose(&mut rng)`: a uniformly chosen position among the four
children; the model reads the next oracle pick. -/
def genPick (src : RandSrc) (st : RandState) : Fin 4 × RandState :=
  (src.picks st.pc, { st with pc := st.pc + 1 })

/-! ## Random generation (`BlobGeno::new_rand`, lines 164-305) -/

/-- The center the candidate is placed at: flush against the parent's edge in
the given direction (`rand_nodes`, lines 230-250; direction `1` is bottom,
`2` left, `3` right, anything else gets the default top formula exactly as
the source's `if`/`else if` chain does). -/
def candCenter (parent : GenoNode) (direction : Nat) (size : ℚ × ℚ) : ℚ × ℚ :=
  if direction = 1 then (parent.center.1, parent.center.2 - parent.size.2 - size.2)
  else if direction = 2 then (parent.center.1 - parent.size.1 - size.1, parent.center.2)
  else if direction = 3 then (parent.center.1 + parent.size.1 + size.1, parent.center.2)
  else (parent.center.1, parent.center.2 + parent.size.2 + size.2)

/-- `rand_nodes` (lines 191-263): draw a spawn coin; on success draw joint
limits and a size (redrawn with swapped bounds for left/right), place the
candidate flush against the parent, and keep it only if `is_overlapped`
rejects no previously recorded region. -/
def rand_nodes (src : RandSrc) (parent : GenoNode) (direction : Nat)
    (occ : List Region) (st : RandState) :
    Option GenericGenoNode × List Region × RandState :=
  let lim_tb : ℚ × ℚ := (parent.size.1, DEFAULT_BLOCK_SIZE.1 * RAND_SIZE_SCALER.2)
  let lim_lr : ℚ × ℚ := (DEFAULT_BLOCK_SIZE.1 * RAND_SIZE_SCALER.2, parent.size.2)
  let gb := genBool src RAND_NODE_NOT_NONE st
  if gb.1 then
    let j1 := genRange src (-PI * (9/10)) 0 gb.2
    let j2 := genRange src 0 (PI * (9/10)) j1.2
    let s1 := genRange src (RAND_SIZE_SCALER.1 * DEFAULT_BLOCK_SIZE.1) lim_tb.1 j2.2
    let s2 := genRange src (RAND_SIZE_SCALER.1 * DEFAULT_BLOCK_SIZE.2) lim_tb.2 s1.2
    let szst :=
      if direction = 2 ∨ direction = 3 then
        let s1' := genRange src (RAND_SIZE_SCALER.1 * DEFAULT_BLOCK_SIZE.1) lim_lr.1 s2.2
        let s2' := genRange src (RAND_SIZE_SCALER.1 * DEFAULT_BLOCK_SIZE.2) lim_lr.2 s1'.2
        ((s1'.1, s2'.1), s2'.2)
      else ((s1.1, s2.1), s2.2)
    let size := szst.1
    let center := candCenter parent direction size
    let ov := is_overlapped center size occ
    if ov.1 then (none, ov.2, szst.2)
    else (some (.Child { joint_limits := (j1.1, j2.1), size := size, center := center,
                         nn_id := none }), ov.2, szst.2)
  else (none, occ, gb.2)

/-- The recursive `build` helper of `new_rand` (lines 266-297).  The source
recursion terminates because child indices strictly exceed the node index
while the guard `tree.nodes.get(children[3]).is_none()` bounds them by the
array length; we make that bound explicit with a fuel argument that
`new_rand` instantiates with the node-array length (which dominates the
recursion depth, since indices grow geometrically).  The trailing `q1`-`q4`
lets are the source's `for &i in children.iter() { if i != parent_idx {
build(...) } }` loop, unrolled. -/
def genBuild (src : RandSrc) :
    Nat → QuadTree GenericGenoNode → Nat → List Region → RandState →
      QuadTree GenericGenoNode × List Region × RandState
  | 0, t, _, occ, st => (t, occ, st)
  | fuel + 1, t, index, occ, st =>
    if (t.nodes[4 * index + 4]?).isNone then (t, occ, st)
    else
      match t.slot index with
      | some (.Child node) =>
        let p1 := rand_nodes src node 0 occ st
        let t1 := t.setSlot (4 * index + 1) p1.1
        let p2 := rand_nodes src node 1 p1.2.1 p1.2.2
        let t2 := t1.setSlot (4 * index + 2) p2.1
        let p3 := rand_nodes src node 2 p2.2.1 p2.2.2
        let t3 := t2.setSlot (4 * index + 3) p3.1
        let p4 := rand_nodes src node 3 p3.2.1 p3.2.2
        let t4 := t3.setSlot (4 * index + 4) p4.1
        let pk := genPick src p4.2.2
        let parent_idx := 4 * index + 1 + (pk.1 : Nat)
        let t5 := t4.setSlot parent_idx (some .Parent)
        let q1 := if 4 * index + 1 ≠ parent_idx then
                    genBuild src fuel t5 (4 * index + 1) p4.2.1 pk.2
                  else (t5, p4.2.1, pk.2)
        let q2 := if 4 * index + 2 ≠ parent_idx then
                    genBuild src fuel q1.1 (4 * index + 2) q1.2.1 q1.2.2 else q1
        let q3 := if 4 * index + 3 ≠ parent_idx then
                    genBuild src fuel q2.1 (4 * index + 3) q2.2.1 q2.2.2 else q2
        if 4 * index + 4 ≠ parent_idx then
          genBuild src fuel q3.1 (4 * index + 4) q3.2.1 q3.2.2 else q3
      | _ => (t, occ, st)
termination_by structural fuel => fuel

/-- The children-recursion phase of `genBuild` (the unrolled loop), split out
for the lemmas below; `genBuild_succ_eq` identifies it with the tail of
`genBuild`'s body. -/
def genRecChildren (src : RandSrc) (fuel : Nat) (t : QuadTree GenericGenoNode)
    (index : Nat) (parent_idx : Nat) (occ : List Region) (st : RandState) :
    QuadTree GenericGenoNode × List Region × RandState :=
  let q1 := if 4 * index + 1 ≠ parent_idx then genBuild src fuel t (4 * index + 1) occ st
            else (t, occ, st)
  let q2 := if 4 * index + 2 ≠ parent_idx then
              genBuild src fuel q1.1 (4 * index + 2) q1.2.1 q1.2.2 else q1
  let q3 := if 4 * index + 3 ≠ parent_idx then
              genBuild src fuel q2.1 (4 * index + 3) q2.2.1 q2.2.2 else q2
  if 4 * index + 4 ≠ parent_idx then
    genBuild src fuel q3.1 (4 * index + 4) q3.2.1 q3.2.2 else q3

/-- The candidate phase of one `build` level (the `for (i, &child) in
children.iter().enumerate()` loop of lines 282-284, data only): the four
`rand_nodes` draws in direction order, threading the occupancy list and the
random state; returns the four slot results, the final occupancy list and
the final random state. -/
def candPhase (src : RandSrc) (node : GenoNode) (occ : List Region) (st : RandState) :
    (Option GenericGenoNode × Option GenericGenoNode × Option GenericGenoNode ×
      Option GenericGenoNode) × List Region × RandState :=
  let p1 := rand_nodes src node 0 occ st
  let p2 := rand_nodes src node 1 p1.2.1 p1.2.2
  let p3 := rand_nodes src node 2 p2.2.1 p2.2.2
  let p4 := rand_nodes src node 3 p3.2.1 p3.2.2
  ((p1.1, p2.1, p3.1, p4.1), p4.2.1, p4.2.2)

/-- Slot result of the candidate phase in a given direction. -/
def candRes
    (c : (Option GenericGenoNode × Option GenericGenoNode × Option GenericGenoNode ×
      Option GenericGenoNode) × List Region × RandState) : Fin 4 → Option GenericGenoNode
  | 0 => c.1.1
  | 1 => c.1.2.1
  | 2 => c.1.2.2.1
  | 3 => c.1.2.2.2

/-- `BlobGeno::new_rand`: default tree, root set to a default limb, then the
recursive `build` from index 0 with an empty occupancy list. -/
def BlobGeno.new_rand (src : RandSrc) : BlobGeno :=
  let bg := BlobGeno.mkDefault
  let t0 := bg.vec_tree.setSlot 0 (some (.Child GenoNode.default))
  { vec_tree := (genBuild src t0.nodes.length t0 0 [] ⟨0, 0, 0⟩).1 }

/-- Structural characterisation of every genotype `new_rand` can return:
17 slots; a default root limb; each root-child slot empty, sentinel, or an
accepted candidate limb (sizes at least 25, placed flush against the root in
its direction); exactly one sentinel among the root's children; accepted
root children pairwise rejected by the inclusive overlap test (each later
candidate against each earlier box); below depth 1 only empty or sentinel
slots, with the depth-1 limbs at indices 1-3 carrying exactly one sentinel
child and sentinel/empty depth-1 slots carrying none. -/
def NewRandGood (g : BlobGeno) : Prop :=
  g.vec_tree.nodes.length = 17 ∧
  g.vec_tree.slot 0 = some (.Child GenoNode.default) ∧
  (∃ s, 1 ≤ s ∧ s ≤ 4 ∧
    ∀ i, 1 ≤ i → i ≤ 4 → (g.vec_tree.slot i = some .Parent ↔ i = s)) ∧
  (∀ i, 1 ≤ i → i ≤ 4 → g.vec_tree.slot i = none ∨
    g.vec_tree.slot i = some .Parent ∨
    ∃ n, g.vec_tree.slot i = some (.Child n) ∧ 25 ≤ n.size.1 ∧
      25 ≤ n.size.2 ∧ n.center = candCenter GenoNode.default (i - 1) n.size) ∧
  (∀ i i', 1 ≤ i → i < i' → i' ≤ 4 → ∀ n n',
    g.vec_tree.slot i = some (.Child n) →
    g.vec_tree.slot i' = some (.Child n') →
    inclOverlapTest (boxOf n'.center n'.size) (boxOf n.center n.size) = false) ∧
  (∀ c, 1 ≤ c → c ≤ 3 →
    (∀ n, g.vec_tree.slot c = some (.Child n) →
      ∃ k, k < 4 ∧ ∀ j, j < 4 →
        g.vec_tree.slot (4 * c + 1 + j) = if j = k then some .Parent else none) ∧
    ((g.vec_tree.slot c = none ∨ g.vec_tree.slot c = some .Parent) →
      ∀ j, j < 4 → g.vec_tree.slot (4 * c + 1 + j) = none)) ∧
  (∀ i, 5 ≤ i → g.vec_tree.slot i = none ∨ g.vec_tree.slot i = some .Parent)

/-! ## Validity re-check (`BlobGeno::is_valid`, lines 317-366) -/

/-- The recursive `check` of `is_valid` (lines 344-361): visit a limb, test
its box against the regions recorded so far (recording it as well), then
check all four children, short-circuiting on the first failure exactly like
the source's `iter().all`.  Sentinel, empty and out-of-range slots are valid
leaves. -/
def checkValid (eps : ℚ) (t : QuadTree GenericGenoNode) (occ : List Region)
    (index : Nat) : Bool × List Region :=
  match h : t.slot index with
  | some (.Child cur) =>
    let ov := is_overlapped_eps eps cur.center cur.size occ
    if ov.1 then (false, ov.2)
    else
      let r1 := checkValid eps t ov.2 (4 * index + 1)
      if r1.1 = false then r1 else
        let r2 := checkValid eps t r1.2 (4 * index + 2)
        if r2.1 = false then r2 else
          let r3 := checkValid eps t r2.2 (4 * index + 3)
          if r3.1 = false then r3 else
            checkValid eps t r3.2 (4 * index + 4)
  | _ => (true, occ)
termination_by t.nodes.length - index
decreasing_by
  all_goals
    have hlt : index < t.nodes.length := by
      by_contra hc
      have : t.nodes[index]? = none := by
        exact List.getElem?_eq_none (by omega)
      simp [QuadTree.slot, this] at h
    omega

/-- `BlobGeno::is_valid`, parameterised by `POSITION_EPSILON` (a constant of
the repository that is not under `src/`; the spec describes it as a small
positive tolerance). -/
def BlobGeno.is_valid (eps : ℚ) (g : BlobGeno) : Bool :=
  (checkValid eps g.vec_tree [] 0).1

/-! ## Genotype queries used by the mapper (lines 307-401) -/

/-- The `lambda` child extractor of `GenoBlobBuilder::build` (lines 30-35):
sentinel and empty slots yield nothing. -/
def lambdaChild : Option GenericGenoNode → Option GenoNode
  | some (.Child c) => some c
  | _ => none

/-- `BlobGeno::get_first` (lines 307-312). -/
def BlobGeno.get_first (g : BlobGeno) : Option GenoNode :=
  lambdaChild (g.vec_tree.slot 0)

/-- `BlobGeno::assign_nn_id_to_root` (lines 393-401): set the root's
`nn_id` only when unset; `none` models the `panic!()` taken when the root
slot is not a limb. -/
def BlobGeno.assign_nn_id_to_root (g : BlobGeno) (id : Nat) : Option BlobGeno :=
  match g.vec_tree.slot 0 with
  | some (.Child node) =>
    some (if node.nn_id = none then
            { vec_tree := g.vec_tree.setSlot 0
                (some (.Child { node with nn_id := some id })) }
          else g)
  | _ => none

/-! ## Body assembler (`blob_builder.rs`)

The external bevy/rapier engine is modelled by a `World` event log: an entity
counter plus the lists of spawned physical segments and revolute joints
(`PhysiBlockBundle` lives in `src/blob/block.rs`, which is not under `src/`;
per the spec's external-interface section a segment is created from a center
position and a half-extent, which is exactly the data the builder passes to
`from_xy_dx_dy`, so a spawned segment is modelled as that pair; local joint
anchor points, colors and densities are not modelled as no claim mentions
them).  The version of `blob_builder.rs` under `src/` predates the one
`geno_blob_builder.rs` calls (it takes no `nnvec` and returns `&mut Self`
from the attach operations); the control-identity return values are therefore
modelled from the spec: per its §6, control identities are indices into an
external controller list, assigned one per created segment, so the world
carries a controller count `nnCount` and each segment creation returns the
next index. -/

/-- Direction of a neighbor slot / attach operation. -/
inductive Dir where
  | top
  | bottom
  | left
  | right
deriving DecidableEq, Repr

/-- Child-array offset of a direction (children order top, bottom, left, right). -/
def Dir.idx : Dir → Nat
  | .top => 0
  | .bottom => 1
  | .left => 2
  | .right => 3

/-- The fixed opposite-direction mapping. -/
def Dir.opposite : Dir → Dir
  | .top => .bottom
  | .bottom => .top
  | .left => .right
  | .right => .left

/-- A spawned physical segment entity in the engine. -/
structure Seg where
  ent : Nat
  center : ℚ × ℚ
  halfExtent : ℚ × ℚ
deriving DecidableEq, Repr

/-- A spawned revolute joint (`bind_joint`, lines 454-465). -/
structure Joint where
  parentEnt : Nat
  childEnt : Nat
  motorTarget : ℚ
  stiffness : ℚ
  damping : ℚ
  limits : ℚ × ℚ
  contactsEnabled : Bool
deriving DecidableEq, Repr

/-- The engine-side state: entity id counter, spawn logs, controller count. -/
structure World where
  nextId : Nat
  segs : List Seg
  joints : List Joint
  nnCount : Nat
deriving DecidableEq, Repr

/-- `BlobBlock` (lines 14-25): a built segment's bookkeeping record. -/
structure BlobBlock where
  id : Nat
  top : Option Nat
  bottom : Option Nat
  left : Option Nat
  right : Option Nat
  vec_index : Nat
  size : ℚ × ℚ
  translation : ℚ × ℚ
deriving DecidableEq, Repr

/-- Neighbor link of a block in a direction. -/
def BlobBlock.link (blk : BlobBlock) : Dir → Option Nat
  | .top => blk.top
  | .bottom => blk.bottom
  | .left => blk.left
  | .right => blk.right

/-- Functional update of a block's neighbor link. -/
def BlobBlock.setLink (blk : BlobBlock) : Dir → Option Nat → BlobBlock
  | .top, v => { blk with top := v }
  | .bottom, v => { blk with bottom := v }
  | .left, v => { blk with left := v }
  | .right, v => { blk with right := v }

/-- `BlobBuilder` state: the group ("blob") entity, the built blocks and the
cursor (`current_pos`). -/
structure BlobBuilder where
  blob : Nat
  blocks : List BlobBlock
  current_pos : Option Nat
deriving DecidableEq, Repr

namespace BlobBuilder

/-- `BlobBuilder::from_commands`: spawns the group entity, empty block list,
no cursor. -/
def from_commands (w : World) : BlobBuilder × World :=
  ({ blob := w.nextId, blocks := [], current_pos := none }, { w with nextId := w.nextId + 1 })

/-- `BlobBuilder::clean` (lines 66-76): spawn a fresh group entity, drop all
blocks, unset the cursor. -/
def clean (b : BlobBuilder) (w : World) : BlobBuilder × World :=
  ({ b with blob := w.nextId, blocks := [], current_pos := none },
   { w with nextId := w.nextId + 1 })

/-- The four directional navigation operations `left`/`right`/`top`/`bottom`
(lines 79-132), which differ only in the link they follow: move the cursor to
the linked neighbor if the cursor is set and the link exists, otherwise warn
and return the state unchanged.  `none` models the Rust index panic of
`self.blocks[pos]` on a dangling cursor (not reachable through the public
API). -/
def nav (d : Dir) (b : BlobBuilder) : Option BlobBuilder :=
  match b.current_pos with
  | some pos =>
    match b.blocks[pos]? with
    | none => none
    | some blk =>
      match blk.link d with
      | some i => some { b with current_pos := some i }
      | none => some b
  | none => some b

/-- `BlobBuilder::create_first` (lines 145-167): spawn the block from the
bundle's center and half-extent, record it with hard-coded `vec_index = 0`,
cursor to 0.  The returned `Nat` is the fresh control identity (spec-modelled,
see the section comment). -/
def create_first (center halfExtent : ℚ × ℚ) (b : BlobBuilder) (w : World) :
    BlobBuilder × World × Nat :=
  let ent := w.nextId
  let blk : BlobBlock :=
    { id := ent, top := none, bottom := none, left := none, right := none,
      vec_index := 0, size := halfExtent, translation := center }
  ({ b with blocks := b.blocks ++ [blk], current_pos := some 0 },
   { w with nextId := ent + 1, segs := w.segs ++ [⟨ent, center, halfExtent⟩],
            nnCount := w.nnCount + 1 },
   w.nnCount)

/-- Spawn position of a new block flush against the cursor block's edge
(`add_to_*`, e.g. lines 189-190, 259-260, 330-331, 401-402). -/
def spawnPos (d : Dir) (blk : BlobBlock) (dx dy : ℚ) : ℚ × ℚ :=
  match d with
  | .top => (blk.translation.1, blk.translation.2 + blk.size.2 + dy)
  | .bottom => (blk.translation.1, blk.translation.2 - blk.size.2 - dy)
  | .left => (blk.translation.1 - blk.size.1 - dx, blk.translation.2)
  | .right => (blk.translation.1 + blk.size.1 + dx, blk.translation.2)

/-- The four attach operations `add_to_left/right/top/bottom`
(lines 170-449), which differ only in the direction: no-op with a warning if
the cursor is unset or the cursor block's slot in that direction is already
linked; otherwise spawn a block of half-extent `(dx, dy)` flush against the
cursor block, link the two symmetrically, spawn a motorised revolute joint
(inert motor when `motor_pos` is `None`, full-rotation default limits when
`motor_limits` is `None`), and advance the cursor.  `none` models the Rust
index panic of `self.blocks[pos]` on a dangling cursor.  The last component
is the control identity of the created segment (`none` when no segment is
created); it is spec-modelled, see the section comment. -/
def addTo (d : Dir) (dx dy : ℚ) (motor_pos : Option ℚ)
    (motor_limits : Option (ℚ × ℚ)) (b : BlobBuilder) (w : World) :
    Option (BlobBuilder × World × Option Nat) :=
  match b.current_pos with
  | none => some (b, w, none)
  | some pos =>
    match b.blocks[pos]? with
    | none => none
    | some blk =>
      if (blk.link d).isSome then some (b, w, none)
      else
        let spawn := spawnPos d blk dx dy
        let ent := w.nextId
        let newBlk : BlobBlock :=
          ({ id := ent, top := none, bottom := none, left := none, right := none,
             vec_index := b.blocks.length, size := (dx, dy),
             translation := spawn } : BlobBlock).setLink d.opposite (some pos)
        let stiff : ℚ := if motor_pos.isSome then MOTOR_STIFFNESS else 0
        let target : ℚ := motor_pos.getD 0
        let limits : ℚ × ℚ := motor_limits.getD (-PI, PI)
        some ({ b with
                blocks := (b.blocks.set pos (blk.setLink d (some newBlk.vec_index)))
                  ++ [newBlk],
                current_pos := some newBlk.vec_index },
              { w with nextId := ent + 1,
                       segs := w.segs ++ [⟨ent, spawn, (dx, dy)⟩],
                       joints := w.joints ++
                         [⟨blk.id, ent, target, stiff, MOTOR_DAMPING, limits,
                           ENABLE_CONTACTS⟩],
                       nnCount := w.nnCount + 1 },
              some w.nnCount)

end BlobBuilder

/-! ## Genotype-to-body mapper (`GenoBlobBuilder::build`, lines 28-142) -/

/-- Mapper state: the genotype tree (into which `nn_id`s are written), the
assembler and the engine world. -/
structure BuildSt where
  tree : QuadTree GenericGenoNode
  builder : BlobBuilder
  world : World
deriving DecidableEq, Repr

/-- Write an `nn_id` into the limb at slot `i` (the `node.nn_id = nn_id`
assignment through the mutable borrow). -/
def setNN (t : QuadTree GenericGenoNode) (i : Nat) (nn : Option Nat) :
    QuadTree GenericGenoNode :=
  match t.slot i with
  | some (.Child c) => t.setSlot i (some (.Child { c with nn_id := nn }))
  | _ => t

/-- `build_node` (lines 37-121): if the slot is occupied, process the four
child directions in order; each direction block attaches a segment for a
limb child, writes the returned control identity into the child when it has
none, recurses into the child, and navigates back via the opposite
direction.  The source recursion terminates because child indices strictly
exceed the node index while occupied slots are bounded by the array length;
the fuel argument (instantiated with the node-array length by
`GenoBlobBuilder.build`, which dominates the recursion depth) makes that
explicit.  `none` propagates a panic (or fuel exhaustion, unreachable for
that instantiation). -/
def buildNode : Nat → BuildSt → Nat → Option BuildSt
  | 0, _, _ => none
  | fuel + 1, st, index =>
    if (st.tree.slot index).isSome then
      -- top
      match (match lambdaChild (st.tree.slot (4 * index + 1)) with
        | none => some st
        | some node =>
          match BlobBuilder.addTo .top node.size.1 node.size.2 none
              (some node.joint_limits) st.builder st.world with
          | none => none
          | some bwn =>
            let t1 := if node.nn_id = none then setNN st.tree (4 * index + 1) bwn.2.2
                      else st.tree
            match buildNode fuel ⟨t1, bwn.1, bwn.2.1⟩ (4 * index + 1) with
            | none => none
            | some st2 =>
              match st2.builder.nav Dir.top.opposite with
              | none => none
              | some b2 => some ⟨st2.tree, b2, st2.world⟩) with
      | none => none
      | some s1 =>
        -- bottom
        match (match lambdaChild (s1.tree.slot (4 * index + 2)) with
          | none => some s1
          | some node =>
            match BlobBuilder.addTo .bottom node.size.1 node.size.2 none
                (some node.joint_limits) s1.builder s1.world with
            | none => none
            | some bwn =>
              let t1 := if node.nn_id = none then setNN s1.tree (4 * index + 2) bwn.2.2
                        else s1.tree
              match buildNode fuel ⟨t1, bwn.1, bwn.2.1⟩ (4 * index + 2) with
              | none => none
              | some st2 =>
                match st2.builder.nav Dir.bottom.opposite with
                | none => none
                | some b2 => some ⟨st2.tree, b2, st2.world⟩) with
        | none => none
        | some s2 =>
          -- left
          match (match lambdaChild (s2.tree.slot (4 * index + 3)) with
            | none => some s2
            | some node =>
              match BlobBuilder.addTo .left node.size.1 node.size.2 none
                  (some node.joint_limits) s2.builder s2.world with
              | none => none
              | some bwn =>
                let t1 := if node.nn_id = none then setNN s2.tree (4 * index + 3) bwn.2.2
                          else s2.tree
                match buildNode fuel ⟨t1, bwn.1, bwn.2.1⟩ (4 * index + 3) with
                | none => none
                | some st2 =>
                  match st2.builder.nav Dir.left.opposite with
                  | none => none
                  | some b2 => some ⟨st2.tree, b2, st2.world⟩) with
          | none => none
          | some s3 =>
            -- right
            match lambdaChild (s3.tree.slot (4 * index + 4)) with
            | none => some s3
            | some node =>
              match BlobBuilder.addTo .right node.size.1 node.size.2 none
                  (some node.joint_limits) s3.builder s3.world with
              | none => none
              | some bwn =>
                let t1 := if node.nn_id = none then setNN s3.tree (4 * index + 4) bwn.2.2
                          else s3.tree
                match buildNode fuel ⟨t1, bwn.1, bwn.2.1⟩ (4 * index + 4) with
                | none => none
                | some st2 =>
                  match st2.builder.nav Dir.right.opposite with
                  | none => none
                  | some b2 => some ⟨st2.tree, b2, st2.world⟩
    else some st
termination_by structural fuel => fuel

/-- One direction block of `build_node`, split out for the lemmas below;
`buildNode_succ_eq` identifies `buildNode (fuel+1)` with the chain of the
four direction blocks. -/
def buildDir (fuel : Nat) (st : BuildSt) (index : Nat) (d : Dir) : Option BuildSt :=
  let ci := 4 * index + 1 + d.idx
  match lambdaChild (st.tree.slot ci) with
  | none => some st
  | some node =>
    match BlobBuilder.addTo d node.size.1 node.size.2 none (some node.joint_limits)
        st.builder st.world with
    | none => none
    | some bwn =>
      let t1 := if node.nn_id = none then setNN st.tree ci bwn.2.2 else st.tree
      match buildNode fuel ⟨t1, bwn.1, bwn.2.1⟩ ci with
      | none => none
      | some st2 =>
        match st2.builder.nav d.opposite with
        | none => none
        | some b2 => some ⟨st2.tree, b2, st2.world⟩

/-- `GenoBlobBuilder::build` (lines 28-142): create the first segment from
the root limb at the given center, bind the returned control identity to the
root if unset, recurse, then clean the assembler.  (`update_geno`, which
stores a copy of the genotype for blob metadata, belongs to the newer
`blob_builder.rs` that is not under `src/` and has no effect on any state
modelled here.)  `none` models the `unwrap` panic on a genotype whose root is
not a limb (or a panic propagated from below). -/
def GenoBlobBuilder.build (b : BlobBuilder) (w : World) (geno : BlobGeno)
    (center : ℚ × ℚ) : Option (BlobGeno × BlobBuilder × World) :=
  match geno.get_first with
  | none => none
  | some first =>
    let cf := BlobBuilder.create_first center first.size b w
    match geno.assign_nn_id_to_root cf.2.2 with
    | none => none
    | some g1 =>
      match buildNode g1.vec_tree.nodes.length ⟨g1.vec_tree, cf.1, cf.2.1⟩ 0 with
      | none => none
      | some st =>
        let cw := BlobBuilder.clean st.builder st.world
        some (⟨st.tree⟩, cw.1, cw.2)

/-- Control identity stored at slot `i` of a genotype tree. -/
def treeNN (t : QuadTree GenericGenoNode) (i : Nat) : Option Nat :=
  match t.slot i with
  | some (.Child n) => n.nn_id
  | _ => none

/-- Control identity stored at slot `i` of a genotype. -/
def nnAt (g : BlobGeno) (i : Nat) : Option Nat :=
  treeNN g.vec_tree i

/-! ## Concrete test inputs -/

/-- A minimal genotype: a single default root limb, no children. -/
def demoGeno : BlobGeno :=
  { vec_tree :=
    { nodes := [some (.Child GenoNode.default), none, none, none, none],
      max_depth := 1 } }

/-- The spec's depth-1 scenario genotype: root limb of half-extent `(50,50)`,
limbs of half-extent `(25,25)` in the top, left and right slots, parent
sentinel in the bottom slot. -/
def scGeno : BlobGeno :=
  { vec_tree :=
    { nodes := [
        some (.Child { joint_limits := (-PI, PI), size := (50, 50), center := (0, 0),
                       nn_id := none }),
        some (.Child { joint_limits := (-1, 1), size := (25, 25), center := (0, 75),
                       nn_id := none }),
        some .Parent,
        some (.Child { joint_limits := (-1, 1), size := (25, 25), center := (-75, 0),
                       nn_id := none }),
        some (.Child { joint_limits := (-1, 1), size := (25, 25), center := (75, 0),
                       nn_id := none })],
      max_depth := 1 } }

/-- The result of building `demoGeno` once from a fresh assembler (root
control identity 0 bound, assembler cleaned, one segment spawned). -/
def demoOut : BlobGeno × BlobBuilder × World :=
  ({ vec_tree :=
      { nodes := [some (.Child { joint_limits := (-PI, PI), size := (50, 50),
                                 center := (0, 0), nn_id := some 0 }),
                  none, none, none, none],
        max_depth := 1 } },
   { blob := 2, blocks := [], current_pos := none },
   { nextId := 3, segs := [⟨1, (0, 0), (50, 50)⟩], joints := [], nnCount := 1 })

/-- The result of building the already-built `demoOut` genotype a second
time at `(3, 3)` (same control identities, one more segment spawned). -/
def demoOut2 : BlobGeno × BlobBuilder × World :=
  (demoOut.1,
   { blob := 4, blocks := [], current_pos := none },
   { nextId := 5, segs := [⟨1, (0, 0), (50, 50)⟩, ⟨3, (3, 3), (50, 50)⟩], joints := [],
     nnCount := 2 })

/-- An oracle whose spawn coin never fires. -/
def quietSrc : RandSrc := ⟨fun _ => false, fun _ => 30, fun _ => 0⟩

/-- An oracle whose spawn coin always fires and whose range draws are all 30. -/
def eagerSrc : RandSrc := ⟨fun _ => true, fun _ => 30, fun _ => 0⟩

/-! # Theorems -/

/-! ## Slot toolkit -/

theorem QuadTree.length_setSlot {T : Type} (t : QuadTree T) (i : Nat) (v : Option T) :
    (t.setSlot i v).nodes.length = t.nodes.length :=
  List.length_set ..

theorem QuadTree.slot_setSlot_self {T : Type} {t : QuadTree T} {i : Nat}
    (h : i < t.nodes.length) (v : Option T) : (t.setSlot i v).slot i = v := by
  simp [QuadTree.slot, QuadTree.setSlot, List.getElem?_set_eq_of_lt _ h]

theorem QuadTree.slot_setSlot_ne {T : Type} {t : QuadTree T} {i j : Nat}
    (h : i ≠ j) (v : Option T) : (t.setSlot i v).slot j = t.slot j := by
  simp [QuadTree.slot, QuadTree.setSlot, List.getElem?_set_ne h]

theorem QuadTree.slot_of_le {T : Type} {t : QuadTree T} {i : Nat}
    (h : t.nodes.length ≤ i) : t.slot i = none := by
  simp [QuadTree.slot, List.getElem?_eq_none h]

theorem QuadTree.lt_of_slot_some {T : Type} {t : QuadTree T} {i : Nat} {x : T}
    (h : t.slot i = some x) : i < t.nodes.length := by
  by_contra hc
  rw [QuadTree.slot_of_le (by omega)] at h
  exact Option.noConfusion h

/-! ## C4: the capacity formula -/

/-- C4: refuted evaluation — `QuadTree::new` allocates `4^max_depth + 1`
slots, which at the repository's `GENO_MAX_DEPTH = 2` is 17, strictly fewer
than the `(4^(max_depth+1) - 1)/3 = 21` slots needed to hold every node up to
that depth (the claim's bound). -/
theorem quadtree_capacity_undersized :
    (QuadTree.new GenericGenoNode GENO_MAX_DEPTH).nodes.length = 4 ^ GENO_MAX_DEPTH + 1 ∧
    (QuadTree.new GenericGenoNode GENO_MAX_DEPTH).nodes.length <
      (4 ^ (GENO_MAX_DEPTH + 1) - 1) / 3 := by
  constructor <;> simp [QuadTree.new, GENO_MAX_DEPTH]

/-! ## C5: panic behavior of the tree operations -/

theorem writeIdx_length {T : Type} {l : List (Option T)} {i : Nat} {v : Option T}
    {l' : List (Option T)} (h : QuadTree.writeIdx l i v = some l') :
    l'.length = l.length := by
  unfold QuadTree.writeIdx at h
  split at h
  · injection h with h
    subst h
    simp
  · exact Option.noConfusion h

theorem cleanSubtreeAux_spec {T : Type} :
    ∀ (fuel : Nat) (nodes : List (Option T)) (index : Nat),
      (∀ l', QuadTree.cleanSubtreeAux fuel nodes index = some l' →
        l'.length = nodes.length) ∧
      (index < nodes.length → nodes.length - index ≤ fuel →
        (QuadTree.cleanSubtreeAux fuel nodes index).isSome) := by
  intro fuel
  induction fuel with
  | zero =>
    intro nodes index
    exact ⟨fun l' h => by simp [QuadTree.cleanSubtreeAux] at h, fun h1 h2 => by omega⟩
  | succ fuel ih =>
    intro nodes index
    have step : ∀ (n : List (Option T)) (c : Nat), n.length - c ≤ fuel →
        ∃ n', (if c < n.length ∧ (n.getD c none).isSome then
                QuadTree.cleanSubtreeAux fuel n c else some n) = some n' ∧
          n'.length = n.length := by
      intro n c hcf
      split
      case isTrue hcond =>
        have h1 := (ih n c).2 hcond.1 hcf
        obtain ⟨n', hn'⟩ := Option.isSome_iff_exists.mp h1
        exact ⟨n', hn', (ih n c).1 n' hn'⟩
      case isFalse => exact ⟨n, rfl, rfl⟩
    have lstep : ∀ (n n' : List (Option T)) (c : Nat),
        (if c < n.length ∧ (n.getD c none).isSome then
          QuadTree.cleanSubtreeAux fuel n c else some n) = some n' →
        n'.length = n.length := by
      intro n n' c e
      split at e
      · exact (ih n c).1 n' e
      · injection e with e
        subst e
        rfl
    constructor
    · intro l' h
      simp only [QuadTree.cleanSubtreeAux] at h
      cases hw : QuadTree.writeIdx nodes index none with
      | none => rw [hw] at h; exact Option.noConfusion h
      | some n0 =>
        rw [hw] at h
        dsimp only at h
        have hl0 : n0.length = nodes.length := writeIdx_length hw
        cases e1 : (if 4 * index + 1 < n0.length ∧ (n0.getD (4 * index + 1) none).isSome then
            QuadTree.cleanSubtreeAux fuel n0 (4 * index + 1) else some n0) with
        | none => rw [e1] at h; exact Option.noConfusion h
        | some n1 =>
          rw [e1] at h
          dsimp only at h
          have l1 := lstep _ _ _ e1
          cases e2 : (if 4 * index + 2 < n1.length ∧ (n1.getD (4 * index + 2) none).isSome then
              QuadTree.cleanSubtreeAux fuel n1 (4 * index + 2) else some n1) with
          | none => rw [e2] at h; exact Option.noConfusion h
          | some n2 =>
            rw [e2] at h
            dsimp only at h
            have l2 := lstep _ _ _ e2
            cases e3 : (if 4 * index + 3 < n2.length ∧ (n2.getD (4 * index + 3) none).isSome then
                QuadTree.cleanSubtreeAux fuel n2 (4 * index + 3) else some n2) with
            | none => rw [e3] at h; exact Option.noConfusion h
            | some n3 =>
              rw [e3] at h
              dsimp only at h
              have l3 := lstep _ _ _ e3
              cases e4 : (if 4 * index + 4 < n3.length ∧ (n3.getD (4 * index + 4) none).isSome then
                  QuadTree.cleanSubtreeAux fuel n3 (4 * index + 4) else some n3) with
              | none => rw [e4] at h; exact Option.noConfusion h
              | some n4 =>
                rw [e4] at h
                dsimp only at h
                have l4 := lstep _ _ _ e4
                injection h with h
                subst h
                omega
    · intro h1 h2
      simp only [QuadTree.cleanSubtreeAux]
      have hw : QuadTree.writeIdx nodes index none = some (nodes.set index none) := by
        simp [QuadTree.writeIdx, h1]
      rw [hw]
      dsimp only
      have hl0 : (nodes.set index none).length = nodes.length := by simp
      obtain ⟨n1, e1, l1⟩ := step (nodes.set index none) (4 * index + 1) (by omega)
      rw [e1]
      dsimp only
      obtain ⟨n2, e2, l2⟩ := step n1 (4 * index + 2) (by omega)
      rw [e2]
      dsimp only
      obtain ⟨n3, e3, l3⟩ := step n2 (4 * index + 3) (by omega)
      rw [e3]
      dsimp only
      obtain ⟨n4, e4, l4⟩ := step n3 (4 * index + 4) (by omega)
      rw [e4]
      rfl

theorem clean_subtree_isSome_iff {T : Type} (t : QuadTree T) (i : Nat) :
    (t.clean_subtree i).isSome ↔ i < t.nodes.length := by
  constructor
  · intro h
    by_contra hc
    unfold QuadTree.clean_subtree at h
    cases hl : t.nodes.length with
    | zero =>
      rw [hl] at h
      simp [QuadTree.cleanSubtreeAux] at h
    | succ n =>
      rw [hl] at h
      simp only [QuadTree.cleanSubtreeAux] at h
      have hw : QuadTree.writeIdx t.nodes i (none : Option T) = none := by
        unfold QuadTree.writeIdx
        rw [if_neg (by omega)]
      rw [hw] at h
      simp at h
  · intro h
    unfold QuadTree.clean_subtree
    have := (cleanSubtreeAux_spec t.nodes.length t.nodes i).2 h (by omega)
    obtain ⟨l', hl'⟩ := Option.isSome_iff_exists.mp this
    rw [hl']
    rfl

theorem cswosStep_isSome {T : Type} (t : QuadTree T) (c : Nat) :
    (QuadTree.cswosStep t c).isSome := by
  unfold QuadTree.cswosStep
  split
  case isTrue h => exact (clean_subtree_isSome_iff t c).mpr h.1
  case isFalse => rfl

/-- C5 counterexample: on the depth-2 tree the repository actually builds
(17 slots), `clean_subtree(17)` hits the unchecked write
`self.nodes[index] = None` out of range — the operation panics (modelled by
`none`), refuting "no IndexedQuadTree operation panics for any index". -/
theorem clean_subtree_out_of_range_panics :
    (QuadTree.new GenericGenoNode GENO_MAX_DEPTH).clean_subtree 17 = none := by
  decide

/-- C5 (amended): `parent`, `children`, `depth` and `is_leaf` are pure,
bounds-checked index computations (total by construction in this model), and
`clean_subtree_without_self` never panics for any index because every child
access is guarded; `clean_subtree`, however, panics precisely when its index
is at or beyond the node-array length, because its first write is unchecked.
-/
theorem indexed_tree_ops_panic_freedom :
    ∀ (T : Type) (t : QuadTree T) (i : Nat),
      (t.clean_subtree_without_self i).isSome = true ∧
      ((t.clean_subtree i).isSome = true ↔ i < t.nodes.length) := by
  intro T t i
  refine ⟨?_, clean_subtree_isSome_iff t i⟩
  unfold QuadTree.clean_subtree_without_self
  obtain ⟨t1, h1⟩ := Option.isSome_iff_exists.mp (cswosStep_isSome t (4 * i + 1))
  obtain ⟨t2, h2⟩ := Option.isSome_iff_exists.mp (cswosStep_isSome t1 (4 * i + 2))
  obtain ⟨t3, h3⟩ := Option.isSome_iff_exists.mp (cswosStep_isSome t2 (4 * i + 3))
  obtain ⟨t4, h4⟩ := Option.isSome_iff_exists.mp (cswosStep_isSome t3 (4 * i + 4))
  rw [h1, Option.some_bind, h2, Option.some_bind, h3, Option.some_bind, h4]
  rfl

/-! ## C9: what the generation-time occupancy list records -/

unseal Rat.add Rat.mul Rat.sub Rat.inv in
/-- C9 counterexample: a concrete spawned candidate (oracle fires the coin,
draws 30s) that overlaps the one recorded region is discarded (`none`), yet
its box *is* appended to the occupancy list consulted by later candidates —
refuting "a candidate that overlaps and is discarded to Empty does not get
its box appended". -/
theorem rejected_candidate_box_recorded :
    (rand_nodes eagerSrc GenoNode.default 0 [boxOf (0, 0) (50, 50)] ⟨0, 0, 0⟩).1 = none ∧
    (rand_nodes eagerSrc GenoNode.default 0 [boxOf (0, 0) (50, 50)] ⟨0, 0, 0⟩).2.1 =
      [boxOf (0, 0) (50, 50), boxOf (0, 80) (30, 30)] := by
  constructor <;> decide

/-- C9 (amended): during random generation a candidate's box is tested
against an occupancy list that contains the boxes of *all* previously spawned
candidates, accepted or rejected: whenever `rand_nodes` spawns a candidate it
appends that candidate's box to the list (`is_overlapped` pushes before
returning on both paths); only the no-spawn branch leaves the list unchanged.
-/
theorem rand_nodes_occupancy_growth :
    ∀ (src : RandSrc) (p : GenoNode) (d : Nat) (occ : List Region) (st : RandState),
      ((rand_nodes src p d occ st).1 = none ∧ (rand_nodes src p d occ st).2.1 = occ) ∨
      ∃ cb, (rand_nodes src p d occ st).2.1 = occ ++ [cb] := by
  intro src p d occ st
  unfold rand_nodes
  dsimp only
  split
  · right
    unfold is_overlapped
    dsimp only
    rw [apply_ite (fun x : Option GenericGenoNode × List Region × RandState => x.2.1)]
    dsimp only
    rw [ite_self]
    exact ⟨_, rfl⟩
  · exact Or.inl ⟨rfl, rfl⟩

/-! ## C8: structural misuse of the assembler is a non-fatal no-op -/

/-- C8: for every assembler state, navigating in a direction with the cursor
unset, or with the cursor on a block whose link in that direction is absent,
returns the state unchanged without panicking; and attaching with the cursor
unset, or in a direction whose slot on the cursor block is already linked,
creates nothing and leaves the builder, the world and the cursor unchanged
(returning no control identity).  In particular navigation on an empty
builder (cursor `None`) is a panic-free no-op. -/
theorem builder_misuse_noop :
    ∀ (b : BlobBuilder) (w : World) (d : Dir) (dx dy : ℚ) (mp : Option ℚ)
      (ml : Option (ℚ × ℚ)),
      (b.current_pos = none →
        BlobBuilder.nav d b = some b ∧
        BlobBuilder.addTo d dx dy mp ml b w = some (b, w, none)) ∧
      (∀ p blk, b.current_pos = some p → b.blocks[p]? = some blk →
        ((blk.link d).isNone → BlobBuilder.nav d b = some b) ∧
        ((blk.link d).isSome →
          BlobBuilder.addTo d dx dy mp ml b w = some (b, w, none))) := by
  intro b w d dx dy mp ml
  constructor
  · intro hcur
    unfold BlobBuilder.nav BlobBuilder.addTo
    rw [hcur]
    exact ⟨rfl, rfl⟩
  · intro p blk hcur hblk
    constructor
    · intro hlink
      unfold BlobBuilder.nav
      rw [hcur]
      dsimp only
      rw [hblk]
      dsimp only
      cases hld : blk.link d with
      | none => rfl
      | some i => rw [hld] at hlink; simp at hlink
    · intro hlink
      unfold BlobBuilder.addTo
      rw [hcur]
      dsimp only
      rw [hblk]
      dsimp only
      rw [if_pos hlink]

/-- C8 witness: the misuse theorem applied to an empty builder (no blocks,
cursor `None`): top navigation and top attachment are both no-ops. -/
theorem builder_misuse_noop_witness :
    BlobBuilder.nav .top ⟨0, [], none⟩ = some ⟨0, [], none⟩ ∧
    BlobBuilder.addTo .top 1 1 none none ⟨0, [], none⟩ ⟨0, [], [], 0⟩ =
      some (⟨0, [], none⟩, ⟨0, [], [], 0⟩, none) :=
  (builder_misuse_noop ⟨0, [], none⟩ ⟨0, [], [], 0⟩ .top 1 1 none none).1 rfl

/-! ## C6: when `build` resets the assembler -/

/-- C6 counterexample: a concrete `build` call on a one-limb genotype spawns
one segment into the world, yet afterwards the assembler's block list is
empty — `build` *does* clear the assembler after the tree is consumed, so the
built segment list is not inspectable by the caller, refuting the claim. -/
theorem build_clears_assembler_afterward :
    (GenoBlobBuilder.build ⟨0, [], none⟩ ⟨1, [], [], 0⟩ demoGeno (0, 0)).map
      (fun o => (o.2.1.blocks.length, o.2.2.segs.length)) = some (0, 1) := by
  rfl

/-- C6 (amended): `GenoBlobBuilder::build` clears the assembler at the *end*
of each call, not the start: after every successful build the assembler's
block list is empty and its cursor unset (the assembler is thereby safe to
reuse for the next genotype, relying on this end-of-call clean rather than a
clean at entry). -/
theorem build_cleans_assembler_at_end :
    ∀ (b : BlobBuilder) (w : World) (g : BlobGeno) (c : ℚ × ℚ)
      (out : BlobGeno × BlobBuilder × World),
      GenoBlobBuilder.build b w g c = some out →
      out.2.1.blocks = [] ∧ out.2.1.current_pos = none := by
  intro b w g c out h
  unfold GenoBlobBuilder.build at h
  cases hf : g.get_first with
  | none => rw [hf] at h; exact Option.noConfusion h
  | some first =>
    rw [hf] at h
    dsimp only at h
    cases ha : g.assign_nn_id_to_root
        (BlobBuilder.create_first c first.size b w).2.2 with
    | none => rw [ha] at h; exact Option.noConfusion h
    | some g1 =>
      rw [ha] at h
      dsimp only at h
      cases hb : buildNode g1.vec_tree.nodes.length
          ⟨g1.vec_tree, (BlobBuilder.create_first c first.size b w).1,
            (BlobBuilder.create_first c first.size b w).2.1⟩ 0 with
      | none => rw [hb] at h; exact Option.noConfusion h
      | some st =>
        rw [hb] at h
        dsimp only at h
        injection h with h
        subst h
        exact ⟨rfl, rfl⟩

/-- C6 witness: the amended theorem applied to the concrete one-limb build,
whose hypothesis is discharged by evaluation. -/
theorem build_cleans_assembler_at_end_witness :
    demoOut.2.1.blocks = [] ∧ demoOut.2.1.current_pos = none :=
  build_cleans_assembler_at_end ⟨0, [], none⟩ ⟨1, [], [], 0⟩ demoGeno (0, 0) demoOut rfl

/-! ## C7: the depth-1 scenario build -/

unseal Rat.add Rat.mul Rat.sub Rat.inv in
/-- C7 counterexample: building the spec's depth-1 scenario genotype at the
origin places the top segment's center at `(0, 75)` (= parent half-extent 50
+ child half-extent 25, flush with zero gap), not at `(0, 100)` as claimed;
likewise `(-75, 0)` and `(75, 0)` for left and right. -/
theorem scenario_centers_not_at_100 :
    (GenoBlobBuilder.build ⟨0, [], none⟩ ⟨1, [], [], 0⟩ scGeno (0, 0)).map
        (fun o => o.2.2.segs.map Seg.center) =
      some [(0, 0), (0, 75), (-75, 0), (75, 0)] ∧
    ((0 : ℚ), (75 : ℚ)) ≠ ((0 : ℚ), (100 : ℚ)) := by
  constructor
  · decide
  · decide

/-! ## C3: control-identity assignment is idempotent across rebuilds -/

theorem lambdaChild_eq_some {o : Option GenericGenoNode} {n : GenoNode} :
    lambdaChild o = some n ↔ o = some (.Child n) := by
  cases o with
  | none => simp [lambdaChild]
  | some g =>
    cases g with
    | Parent => simp [lambdaChild]
    | Child c => simp [lambdaChild]

/-- `buildNode (fuel+1)` is the chain of the four `buildDir` blocks. -/
theorem buildNode_succ_eq (fuel : Nat) (st : BuildSt) (index : Nat) :
    buildNode (fuel + 1) st index =
      if (st.tree.slot index).isSome then
        match buildDir fuel st index .top with
        | none => none
        | some s1 =>
          match buildDir fuel s1 index .bottom with
          | none => none
          | some s2 =>
            match buildDir fuel s2 index .left with
            | none => none
            | some s3 => buildDir fuel s3 index .right
      else some st :=
  rfl

/-- `setNN` never erases an already-set control identity at another slot,
and is only invoked on slots whose identity is unset. -/
theorem treeNN_setNN_mono {t : QuadTree GenericGenoNode} {i : Nat}
    (hni : treeNN t i = none) (nn : Option Nat) {j : Nat} {v : Nat}
    (hj : treeNN t j = some v) : treeNN (setNN t i nn) j = some v := by
  unfold setNN
  cases hs : t.slot i with
  | none => exact hj
  | some g =>
    cases g with
    | Parent => exact hj
    | Child c =>
      dsimp only
      have hij : i ≠ j := by
        intro he
        subst he
        unfold treeNN at hni hj
        rw [hs] at hni hj
        dsimp only at hni hj
        rw [hni] at hj
        exact Option.noConfusion hj
      unfold treeNN
      rw [QuadTree.slot_setSlot_ne hij]
      exact hj

/-- Monotonicity statement for `buildNode` at a given fuel. -/
def NodeMono (fuel : Nat) : Prop :=
  ∀ (st : BuildSt) (index : Nat) (st' : BuildSt),
    buildNode fuel st index = some st' →
    ∀ (j : Nat) (v : Nat), treeNN st.tree j = some v → treeNN st'.tree j = some v

/-- Monotonicity statement for `buildDir` at a given fuel. -/
def DirMono (fuel : Nat) : Prop :=
  ∀ (st : BuildSt) (index : Nat) (d : Dir) (st' : BuildSt),
    buildDir fuel st index d = some st' →
    ∀ (j : Nat) (v : Nat), treeNN st.tree j = some v → treeNN st'.tree j = some v

theorem dirMono_of_nodeMono (fuel : Nat) (hP : NodeMono fuel) : DirMono fuel := by
  intro st index d st' h j v hj
  unfold buildDir at h
  dsimp only at h
  cases hc : lambdaChild (st.tree.slot (4 * index + 1 + d.idx)) with
  | none =>
    rw [hc] at h
    injection h with h
    subst h
    exact hj
  | some node =>
    rw [hc] at h
    dsimp only at h
    cases ha : BlobBuilder.addTo d node.size.1 node.size.2 none (some node.joint_limits)
        st.builder st.world with
    | none => rw [ha] at h; exact Option.noConfusion h
    | some bwn =>
      rw [ha] at h
      dsimp only at h
      have ht1 : treeNN (if node.nn_id = none then
          setNN st.tree (4 * index + 1 + d.idx) bwn.2.2 else st.tree) j = some v := by
        split
        case isTrue hguard =>
          refine treeNN_setNN_mono ?_ _ hj
          rw [treeNN, lambdaChild_eq_some.mp hc]
          exact hguard
        case isFalse => exact hj
      cases hb : buildNode fuel ⟨(if node.nn_id = none then
          setNN st.tree (4 * index + 1 + d.idx) bwn.2.2 else st.tree), bwn.1, bwn.2.1⟩
          (4 * index + 1 + d.idx) with
      | none => rw [hb] at h; exact Option.noConfusion h
      | some st2 =>
        rw [hb] at h
        dsimp only at h
        have h2 := hP _ _ _ hb j v ht1
        cases hn : st2.builder.nav d.opposite with
        | none => rw [hn] at h; exact Option.noConfusion h
        | some b2 =>
          rw [hn] at h
          injection h with h
          subst h
          exact h2

theorem nodeMono : ∀ fuel, NodeMono fuel := by
  intro fuel
  induction fuel with
  | zero =>
    intro st index st' h
    exact Option.noConfusion h
  | succ fuel ih =>
    have hQ := dirMono_of_nodeMono fuel ih
    intro st index st' h j v hj
    rw [buildNode_succ_eq] at h
    split at h
    case isFalse =>
      injection h with h
      subst h
      exact hj
    case isTrue =>
      cases h1 : buildDir fuel st index .top with
      | none => rw [h1] at h; exact Option.noConfusion h
      | some s1 =>
        rw [h1] at h
        dsimp only at h
        have m1 := hQ _ _ _ _ h1 j v hj
        cases h2 : buildDir fuel s1 index .bottom with
        | none => rw [h2] at h; exact Option.noConfusion h
        | some s2 =>
          rw [h2] at h
          dsimp only at h
          have m2 := hQ _ _ _ _ h2 j v m1
          cases h3 : buildDir fuel s2 index .left with
          | none => rw [h3] at h; exact Option.noConfusion h
          | some s3 =>
            rw [h3] at h
            dsimp only at h
            exact hQ _ _ _ _ h j v (hQ _ _ _ _ h3 j v m2)

/-- After a successful `assign_nn_id_to_root` the root identity is set, and
identities already set anywhere are unchanged. -/
theorem assign_nn_id_spec {g : BlobGeno} {id : Nat} {g' : BlobGeno}
    (h : g.assign_nn_id_to_root id = some g') :
    (nnAt g' 0).isSome ∧ (∀ j v, nnAt g j = some v → nnAt g' j = some v) := by
  unfold BlobGeno.assign_nn_id_to_root at h
  cases hs : g.vec_tree.slot 0 with
  | none => rw [hs] at h; exact Option.noConfusion h
  | some gg =>
    cases gg with
    | Parent => rw [hs] at h; exact Option.noConfusion h
    | Child node =>
      rw [hs] at h
      dsimp only at h
      injection h with h
      subst h
      split
      case isTrue hguard =>
        constructor
        · rw [nnAt, treeNN, QuadTree.slot_setSlot_self (QuadTree.lt_of_slot_some hs)]
          rfl
        · intro j v hj
          have hj0 : 0 ≠ j := by
            intro he
            subst he
            unfold nnAt treeNN at hj
            rw [hs] at hj
            dsimp only at hj
            rw [hguard] at hj
            exact Option.noConfusion hj
          rw [nnAt, treeNN, QuadTree.slot_setSlot_ne hj0]
          exact hj
      case isFalse hguard =>
        refine ⟨?_, fun j v hj => hj⟩
        rw [nnAt, treeNN, hs]
        exact Option.isSome_iff_ne_none.mpr hguard

/-- What a successful `GenoBlobBuilder.build` produces: an
`assign_nn_id_to_root` result pushed through `buildNode`. -/
theorem build_inversion {b : BlobBuilder} {w : World} {g : BlobGeno} {c : ℚ × ℚ}
    {out : BlobGeno × BlobBuilder × World}
    (h : GenoBlobBuilder.build b w g c = some out) :
    ∃ first g1 st, g.get_first = some first ∧
      g.assign_nn_id_to_root (BlobBuilder.create_first c first.size b w).2.2 = some g1 ∧
      buildNode g1.vec_tree.nodes.length
        ⟨g1.vec_tree, (BlobBuilder.create_first c first.size b w).1,
          (BlobBuilder.create_first c first.size b w).2.1⟩ 0 = some st ∧
      out.1 = ⟨st.tree⟩ := by
  unfold GenoBlobBuilder.build at h
  cases hf : g.get_first with
  | none => rw [hf] at h; exact Option.noConfusion h
  | some first =>
    rw [hf] at h
    dsimp only at h
    cases ha : g.assign_nn_id_to_root (BlobBuilder.create_first c first.size b w).2.2 with
    | none => rw [ha] at h; exact Option.noConfusion h
    | some g1 =>
      rw [ha] at h
      dsimp only at h
      cases hb : buildNode g1.vec_tree.nodes.length
          ⟨g1.vec_tree, (BlobBuilder.create_first c first.size b w).1,
            (BlobBuilder.create_first c first.size b w).2.1⟩ 0 with
      | none => rw [hb] at h; exact Option.noConfusion h
      | some st =>
        rw [hb] at h
        dsimp only at h
        injection h with h
        subst h
        exact ⟨first, g1, st, rfl, ha, hb, rfl⟩

/-- C3: building a genotype into two bodies with two separate `build` calls
yields the same root control identity both times, and every control identity
(root or not) that is `Some` after the first build is unchanged after the
second: `build` never overwrites a set control identity. -/
theorem build_control_id_idempotent :
    ∀ (b : BlobBuilder) (w : World) (g : BlobGeno) (c c' : ℚ × ℚ)
      (out1 out2 : BlobGeno × BlobBuilder × World),
      GenoBlobBuilder.build b w g c = some out1 →
      GenoBlobBuilder.build out1.2.1 out1.2.2 out1.1 c' = some out2 →
      (nnAt out1.1 0).isSome ∧ nnAt out2.1 0 = nnAt out1.1 0 ∧
        ∀ i v, nnAt out1.1 i = some v → nnAt out2.1 i = some v := by
  intro b w g c c' out1 out2 h1 h2
  obtain ⟨f1, g1, st1, -, ha1, hb1, ho1⟩ := build_inversion h1
  obtain ⟨f2, g2, st2, -, ha2, hb2, ho2⟩ := build_inversion h2
  have hroot1 : (nnAt out1.1 0).isSome := by
    obtain ⟨hset, -⟩ := assign_nn_id_spec ha1
    obtain ⟨r, hr⟩ := Option.isSome_iff_exists.mp hset
    rw [ho1]
    exact Option.isSome_iff_exists.mpr ⟨r, nodeMono _ _ _ _ hb1 0 r hr⟩
  have hmono2 : ∀ i v, nnAt out1.1 i = some v → nnAt out2.1 i = some v := by
    intro i v hv
    obtain ⟨-, hkeep⟩ := assign_nn_id_spec ha2
    rw [ho2]
    exact nodeMono _ _ _ _ hb2 i v (hkeep i v hv)
  refine ⟨hroot1, ?_, hmono2⟩
  obtain ⟨r, hr⟩ := Option.isSome_iff_exists.mp hroot1
  rw [hr, hmono2 0 r hr]

/-- C3 witness: the idempotence theorem applied to two concrete successive
builds of the one-limb genotype; both hypotheses evaluate by `rfl`. -/
theorem build_control_id_idempotent_witness :
    (nnAt demoOut.1 0).isSome ∧ nnAt demoOut2.1 0 = nnAt demoOut.1 0 ∧
      ∀ i v, nnAt demoOut.1 i = some v → nnAt demoOut2.1 i = some v :=
  build_control_id_idempotent ⟨0, [], none⟩ ⟨1, [], [], 0⟩ demoGeno (0, 0) (3, 3)
    demoOut demoOut2 rfl rfl

unseal Rat.add Rat.mul Rat.sub Rat.inv in
/-- C7 (amended): the depth-1 scenario genotype (root limb half-extent
`(50,50)`, top/left/right limbs half-extent `(25,25)`, bottom sentinel) built
at the origin yields exactly 4 segments and 3 joints, with the top, left and
right segments' centers at `(0,75)`, `(-75,0)` and `(75,0)` respectively. -/
theorem scenario_four_segments_three_joints :
    (GenoBlobBuilder.build ⟨0, [], none⟩ ⟨1, [], [], 0⟩ scGeno (0, 0)).map
        (fun o => (o.2.2.segs.map Seg.center, o.2.2.joints.length)) =
      some ([(0, 0), (0, 75), (-75, 0), (75, 0)], 3) := by
  decide

/-! ## Properties of `rand_nodes` -/

theorem genRange_ge_lo (src : RandSrc) (lo hi : ℚ) (st : RandState) :
    lo ≤ (genRange src lo hi st).1 := by
  unfold genRange
  dsimp only
  split
  case isTrue h => exact h.1
  case isFalse => exact le_refl lo

/-- Everything `rand_nodes` can return: either no candidate (list extended by
at most the rejected candidate's box), or an accepted limb whose sizes are at
least 25, whose center is flush against the parent in the drawn direction,
whose box is appended to the returned list, and which the inclusive test
rejects against no incoming region. -/
theorem rand_nodes_spec (src : RandSrc) (p : GenoNode) (d : Nat) (occ : List Region)
    (st : RandState) :
    ((rand_nodes src p d occ st).1 = none ∧
      ∃ ext, (rand_nodes src p d occ st).2.1 = occ ++ ext) ∨
    (∃ n, (rand_nodes src p d occ st).1 = some (.Child n) ∧
      25 ≤ n.size.1 ∧ 25 ≤ n.size.2 ∧ n.center = candCenter p d n.size ∧
      (rand_nodes src p d occ st).2.1 = occ ++ [boxOf n.center n.size] ∧
      ∀ r ∈ occ, inclOverlapTest (boxOf n.center n.size) r = false) := by
  unfold rand_nodes
  dsimp only
  split
  case isTrue =>
    unfold is_overlapped
    dsimp only
    by_cases hd : d = 2 ∨ d = 3
    · rw [if_pos hd]
      dsimp only
      split
      · exact Or.inl ⟨rfl, _, rfl⟩
      · rename_i hov
        refine Or.inr ⟨_, rfl, ?_, ?_, rfl, rfl, ?_⟩
        · exact le_trans (by norm_num [RAND_SIZE_SCALER, DEFAULT_BLOCK_SIZE])
            (genRange_ge_lo src _ _ _)
        · exact le_trans (by norm_num [RAND_SIZE_SCALER, DEFAULT_BLOCK_SIZE])
            (genRange_ge_lo src _ _ _)
        · intro r hr
          by_contra hne
          simp only [Bool.not_eq_false] at hne
          exact hov (List.any_eq_true.mpr ⟨r, hr, hne⟩)
    · rw [if_neg hd]
      dsimp only
      split
      · exact Or.inl ⟨rfl, _, rfl⟩
      · rename_i hov
        refine Or.inr ⟨_, rfl, ?_, ?_, rfl, rfl, ?_⟩
        · exact le_trans (by norm_num [RAND_SIZE_SCALER, DEFAULT_BLOCK_SIZE])
            (genRange_ge_lo src _ _ _)
        · exact le_trans (by norm_num [RAND_SIZE_SCALER, DEFAULT_BLOCK_SIZE])
            (genRange_ge_lo src _ _ _)
        · intro r hr
          by_contra hne
          simp only [Bool.not_eq_false] at hne
          exact hov (List.any_eq_true.mpr ⟨r, hr, hne⟩)
  case isFalse =>
    exact Or.inl ⟨rfl, [], by simp⟩

/-- A candidate placed flush against its parent always passes the inclusive
overlap test against the parent's own box. -/
theorem cand_overlaps_parent (p : GenoNode) (d : Nat) (size : ℚ × ℚ)
    (hp1 : 0 ≤ p.size.1) (hp2 : 0 ≤ p.size.2) (hs1 : 0 ≤ size.1) (hs2 : 0 ≤ size.2) :
    inclOverlapTest (boxOf (candCenter p d size) size) (boxOf p.center p.size) = true := by
  unfold candCenter
  split_ifs <;>
    · unfold inclOverlapTest boxOf
      dsimp only
      simp only [Bool.and_eq_true, decide_eq_true_eq, ge_iff_le]
      refine ⟨⟨?_, ?_⟩, ?_, ?_⟩ <;> linarith

/-- Once the parent's box is on the occupancy list, every candidate child is
rejected. -/
theorem rand_nodes_reject (src : RandSrc) (p : GenoNode) (d : Nat) (occ : List Region)
    (st : RandState) (hp1 : 0 ≤ p.size.1) (hp2 : 0 ≤ p.size.2)
    (hmem : boxOf p.center p.size ∈ occ) :
    (rand_nodes src p d occ st).1 = none := by
  rcases rand_nodes_spec src p d occ st with ⟨h, -⟩ | ⟨n, -, hs1, hs2, hcen, -, hall⟩
  · exact h
  · exfalso
    have := hall _ hmem
    rw [hcen] at this
    rw [cand_overlaps_parent p d n.size hp1 hp2 (by linarith) (by linarith)] at this
    exact Bool.noConfusion this

/-! ## Structural lemmas about `genBuild` -/

theorem genBuild_noop (src : RandSrc) (fuel : Nat) (t : QuadTree GenericGenoNode)
    (index : Nat) (occ : List Region) (st : RandState)
    (h : ∀ n, t.slot index ≠ some (.Child n)) :
    genBuild src fuel t index occ st = (t, occ, st) := by
  cases fuel with
  | zero => rfl
  | succ fuel =>
    unfold genBuild
    split
    · rfl
    · cases hs : t.slot index with
      | none => rfl
      | some g =>
        cases g with
        | Parent => rfl
        | Child n => exact absurd hs (h n)

theorem genBuild_oob (src : RandSrc) (fuel : Nat) (t : QuadTree GenericGenoNode)
    (index : Nat) (occ : List Region) (st : RandState)
    (h : t.nodes[4 * index + 4]? = none) :
    genBuild src fuel t index occ st = (t, occ, st) := by
  cases fuel with
  | zero => rfl
  | succ fuel =>
    unfold genBuild
    rw [h]
    rfl

/-- `genBuild` at an occupied in-range node is the candidate phase, the
sentinel write, then the children recursion. -/
theorem genBuild_child_eq (src : RandSrc) (fuel : Nat) (t : QuadTree GenericGenoNode)
    (index : Nat) (occ : List Region) (st : RandState) (node : GenoNode)
    (hguard : (t.nodes[4 * index + 4]?).isNone = false)
    (hs : t.slot index = some (.Child node)) :
    genBuild src (fuel + 1) t index occ st =
      genRecChildren src fuel
        (((((t.setSlot (4 * index + 1) (candRes (candPhase src node occ st) 0)).setSlot
            (4 * index + 2) (candRes (candPhase src node occ st) 1)).setSlot
            (4 * index + 3) (candRes (candPhase src node occ st) 2)).setSlot
            (4 * index + 4) (candRes (candPhase src node occ st) 3)).setSlot
          (4 * index + 1 + ((genPick src (candPhase src node occ st).2.2).1 : Nat))
          (some .Parent))
        index (4 * index + 1 + ((genPick src (candPhase src node occ st).2.2).1 : Nat))
        (candPhase src node occ st).2.1
        (genPick src (candPhase src node occ st).2.2).2 := by
  unfold genBuild
  rw [hguard, if_neg (by simp), hs]
  rfl

theorem genRecChildren_noop (src : RandSrc) (fuel : Nat) (t : QuadTree GenericGenoNode)
    (index : Nat) (pidx : Nat) (occ : List Region) (st : RandState)
    (h : ∀ j : Fin 4, ∀ n, t.slot (4 * index + 1 + j.val) ≠ some (.Child n)) :
    genRecChildren src fuel t index pidx occ st = (t, occ, st) := by
  unfold genRecChildren
  dsimp only
  have s1 : (if 4 * index + 1 ≠ pidx then genBuild src fuel t (4 * index + 1) occ st
      else (t, occ, st)) = (t, occ, st) := by
    split
    · exact genBuild_noop src fuel t _ occ st (by
        have := h 0
        simpa using this)
    · rfl
  rw [s1]
  dsimp only
  have s2 : (if 4 * index + 2 ≠ pidx then genBuild src fuel t (4 * index + 2) occ st
      else (t, occ, st)) = (t, occ, st) := by
    split
    · exact genBuild_noop src fuel t _ occ st (by
        have := h 1
        simpa [show 4 * index + 1 + 1 = 4 * index + 2 by omega] using this)
    · rfl
  rw [s2]
  dsimp only
  have s3 : (if 4 * index + 3 ≠ pidx then genBuild src fuel t (4 * index + 3) occ st
      else (t, occ, st)) = (t, occ, st) := by
    split
    · exact genBuild_noop src fuel t _ occ st (by
        have := h 2
        simpa [show 4 * index + 1 + 2 = 4 * index + 3 by omega] using this)
    · rfl
  rw [s3]
  dsimp only
  split
  · exact genBuild_noop src fuel t _ occ st (by
      have := h 3
      simpa [show 4 * index + 1 + 3 = 4 * index + 4 by omega] using this)
  · rfl

theorem rand_nodes_occ_extends (src : RandSrc) (p : GenoNode) (d : Nat)
    (occ : List Region) (st : RandState) :
    ∃ ext, (rand_nodes src p d occ st).2.1 = occ ++ ext := by
  rcases rand_nodes_spec src p d occ st with ⟨-, h⟩ | ⟨n, -, -, -, -, h, -⟩
  · exact h
  · exact ⟨_, h⟩

theorem candPhase_occ_extends (src : RandSrc) (node : GenoNode) (occ : List Region)
    (st : RandState) :
    ∃ ext, (candPhase src node occ st).2.1 = occ ++ ext := by
  unfold candPhase
  dsimp only
  obtain ⟨e1, h1⟩ := rand_nodes_occ_extends src node 0 occ st
  rw [h1]
  obtain ⟨e2, h2⟩ := rand_nodes_occ_extends src node 1 (occ ++ e1) _
  rw [h2]
  obtain ⟨e3, h3⟩ := rand_nodes_occ_extends src node 2 (occ ++ e1 ++ e2) _
  rw [h3]
  obtain ⟨e4, h4⟩ := rand_nodes_occ_extends src node 3 (occ ++ e1 ++ e2 ++ e3) _
  rw [h4]
  exact ⟨e1 ++ e2 ++ e3 ++ e4, by simp⟩

/-- With the parent's box on the occupancy list, every slot of the candidate
phase comes out empty. -/
theorem candPhase_all_rejected (src : RandSrc) (node : GenoNode) (occ : List Region)
    (st : RandState) (hs1 : 0 ≤ node.size.1) (hs2 : 0 ≤ node.size.2)
    (hmem : boxOf node.center node.size ∈ occ) :
    ∀ j : Fin 4, candRes (candPhase src node occ st) j = none := by
  have m1 : ∀ (d : Nat) (occ' : List Region) (st' : RandState),
      boxOf node.center node.size ∈ occ' →
      (rand_nodes src node d occ' st').1 = none :=
    fun d occ' st' hm => rand_nodes_reject src node d occ' st' hs1 hs2 hm
  have ext01 := rand_nodes_occ_extends src node 0 occ st
  obtain ⟨e1, h1⟩ := ext01
  obtain ⟨e2, h2⟩ := rand_nodes_occ_extends src node 1 (rand_nodes src node 0 occ st).2.1
    (rand_nodes src node 0 occ st).2.2
  obtain ⟨e3, h3⟩ := rand_nodes_occ_extends src node 2
    (rand_nodes src node 1 (rand_nodes src node 0 occ st).2.1
      (rand_nodes src node 0 occ st).2.2).2.1
    (rand_nodes src node 1 (rand_nodes src node 0 occ st).2.1
      (rand_nodes src node 0 occ st).2.2).2.2
  have hm1 : boxOf node.center node.size ∈ (rand_nodes src node 0 occ st).2.1 := by
    rw [h1]; exact List.mem_append_left _ hmem
  have hm2 : boxOf node.center node.size ∈
      (rand_nodes src node 1 (rand_nodes src node 0 occ st).2.1
        (rand_nodes src node 0 occ st).2.2).2.1 := by
    rw [h2]; exact List.mem_append_left _ hm1
  have hm3 : boxOf node.center node.size ∈
      (rand_nodes src node 2
        (rand_nodes src node 1 (rand_nodes src node 0 occ st).2.1
          (rand_nodes src node 0 occ st).2.2).2.1
        (rand_nodes src node 1 (rand_nodes src node 0 occ st).2.1
          (rand_nodes src node 0 occ st).2.2).2.2).2.1 := by
    rw [h3]; exact List.mem_append_left _ hm2
  intro j
  fin_cases j <;>
    first
    | exact m1 0 occ st hmem
    | exact m1 1 _ _ hm1
    | exact m1 2 _ _ hm2
    | exact m1 3 _ _ hm3

/-- One conditional child recursion of the children loop: starting from a
tree whose four grandchild slots are empty, the step changes nothing outside
the grandchild range; a skipped, empty, sentinel or out-of-range child leaves
the tree untouched, and a processed limb child (whose box is already on the
occupancy list) gets all four of its candidate children rejected and exactly
one sentinel. -/
theorem genBuild_step_cases (src : RandSrc) (fuel : Nat) (t : QuadTree GenericGenoNode)
    (c pidx : Nat) (occ : List Region) (st : RandState)
    (hkids : ∀ j : Fin 4, t.slot (4 * c + 1 + j.val) = none)
    (hcase : c = pidx ∨ t.slot c = none ∨ t.slot c = some .Parent ∨
      ∃ n, t.slot c = some (.Child n) ∧ (t.nodes.length ≤ 4 * c + 4 ∨
        (0 ≤ n.size.1 ∧ 0 ≤ n.size.2 ∧ boxOf n.center n.size ∈ occ))) :
    ∃ t' ext st',
      (if c ≠ pidx then genBuild src (fuel + 1) t c occ st else (t, occ, st)) =
        (t', occ ++ ext, st') ∧
      t'.nodes.length = t.nodes.length ∧
      (∀ j, j < 4 * c + 1 ∨ 4 * c + 4 < j → t'.slot j = t.slot j) ∧
      (∀ j : Fin 4, t'.slot (4 * c + 1 + j.val) = none ∨
        t'.slot (4 * c + 1 + j.val) = some .Parent) ∧
      (∀ n, t.slot c = some (.Child n) → c ≠ pidx → 4 * c + 4 < t.nodes.length →
        ∃ k : Fin 4, ∀ j : Fin 4,
          t'.slot (4 * c + 1 + j.val) = if j = k then some .Parent else none) ∧
      ((c = pidx ∨ t.slot c = none ∨ t.slot c = some .Parent ∨
        t.nodes.length ≤ 4 * c + 4) → t' = t) := by
  have unchanged : ∀ hres : genBuild src (fuel + 1) t c occ st = (t, occ, st) ∨ c = pidx,
      (∀ n, t.slot c = some (.Child n) → c ≠ pidx → 4 * c + 4 < t.nodes.length → False) →
      ∃ t' ext st',
        (if c ≠ pidx then genBuild src (fuel + 1) t c occ st else (t, occ, st)) =
          (t', occ ++ ext, st') ∧
        t'.nodes.length = t.nodes.length ∧
        (∀ j, j < 4 * c + 1 ∨ 4 * c + 4 < j → t'.slot j = t.slot j) ∧
        (∀ j : Fin 4, t'.slot (4 * c + 1 + j.val) = none ∨
          t'.slot (4 * c + 1 + j.val) = some .Parent) ∧
        (∀ n, t.slot c = some (.Child n) → c ≠ pidx → 4 * c + 4 < t.nodes.length →
          ∃ k : Fin 4, ∀ j : Fin 4,
            t'.slot (4 * c + 1 + j.val) = if j = k then some .Parent else none) ∧
        ((c = pidx ∨ t.slot c = none ∨ t.slot c = some .Parent ∨
          t.nodes.length ≤ 4 * c + 4) → t' = t) := by
    intro hres hlast
    refine ⟨t, [], st, ?_, rfl, fun j _ => rfl, fun j => Or.inl (hkids j),
      fun n h1 h2 h3 => absurd (hlast n h1 h2 h3) not_false, fun _ => rfl⟩
    rcases hres with hres | hres
    · rw [List.append_nil]
      split
      · exact hres
      · rfl
    · rw [List.append_nil, if_neg (by omega)]
  by_cases hcp : c = pidx
  · exact unchanged (Or.inr hcp) (fun n _ h2 _ => absurd hcp h2)
  rcases hcase with hcase | hnone | hpar | ⟨n, hn, hrest⟩
  · exact absurd hcase hcp
  · exact unchanged (Or.inl (genBuild_noop src _ t c occ st (by simp [hnone])))
      (fun m hm _ _ => by rw [hnone] at hm; exact Option.noConfusion hm)
  · exact unchanged (Or.inl (genBuild_noop src _ t c occ st (by simp [hpar])))
      (fun m hm _ _ => by
        rw [hpar] at hm
        injection hm with hm
        exact GenericGenoNode.noConfusion hm)
  by_cases hlen : t.nodes.length ≤ 4 * c + 4
  · exact unchanged
      (Or.inl (genBuild_oob src _ t c occ st (List.getElem?_eq_none hlen)))
      (fun m _ _ h3 => by omega)
  -- the processed-limb case
  have hlt : 4 * c + 4 < t.nodes.length := by omega
  have hsz : 0 ≤ n.size.1 ∧ 0 ≤ n.size.2 ∧ boxOf n.center n.size ∈ occ := by
    rcases hrest with hrest | hrest
    · omega
    · exact hrest
  obtain ⟨hs1, hs2, hmem⟩ := hsz
  have hguard : (t.nodes[4 * c + 4]?).isNone = false := by
    rw [List.getElem?_eq_getElem hlt]
    rfl
  rw [if_pos hcp, genBuild_child_eq src fuel t c occ st n hguard hn]
  have hrej := candPhase_all_rejected src n occ st hs1 hs2 hmem
  set pk : Fin 4 := (genPick src (candPhase src n occ st).2.2).1 with hpk
  set tmid : QuadTree GenericGenoNode :=
    ((((t.setSlot (4 * c + 1) (candRes (candPhase src n occ st) 0)).setSlot
      (4 * c + 2) (candRes (candPhase src n occ st) 1)).setSlot
      (4 * c + 3) (candRes (candPhase src n occ st) 2)).setSlot
      (4 * c + 4) (candRes (candPhase src n occ st) 3)).setSlot
      (4 * c + 1 + (pk : Nat)) (some .Parent) with htmid
  have hlen5 : tmid.nodes.length = t.nodes.length := by
    rw [htmid]
    simp [QuadTree.length_setSlot]
  have hchain : ∀ i, 4 * c + 1 ≤ i → i ≤ 4 * c + 4 →
      ((((t.setSlot (4 * c + 1) (candRes (candPhase src n occ st) 0)).setSlot
        (4 * c + 2) (candRes (candPhase src n occ st) 1)).setSlot
        (4 * c + 3) (candRes (candPhase src n occ st) 2)).setSlot
        (4 * c + 4) (candRes (candPhase src n occ st) 3)).slot i = none := by
    intro i hi1 hi2
    have hi4 : i = 4 * c + 1 ∨ i = 4 * c + 2 ∨ i = 4 * c + 3 ∨ i = 4 * c + 4 := by omega
    rcases hi4 with rfl | rfl | rfl | rfl
    · rw [QuadTree.slot_setSlot_ne (show 4 * c + 4 ≠ 4 * c + 1 by omega),
        QuadTree.slot_setSlot_ne (show 4 * c + 3 ≠ 4 * c + 1 by omega),
        QuadTree.slot_setSlot_ne (show 4 * c + 2 ≠ 4 * c + 1 by omega),
        QuadTree.slot_setSlot_self (show 4 * c + 1 < t.nodes.length by omega) _]
      exact hrej 0
    · rw [QuadTree.slot_setSlot_ne (show 4 * c + 4 ≠ 4 * c + 2 by omega),
        QuadTree.slot_setSlot_ne (show 4 * c + 3 ≠ 4 * c + 2 by omega),
        QuadTree.slot_setSlot_self
          (by simp only [QuadTree.length_setSlot]; omega) _]
      exact hrej 1
    · rw [QuadTree.slot_setSlot_ne (show 4 * c + 4 ≠ 4 * c + 3 by omega),
        QuadTree.slot_setSlot_self
          (by simp only [QuadTree.length_setSlot]; omega) _]
      exact hrej 2
    · rw [QuadTree.slot_setSlot_self
        (by simp only [QuadTree.length_setSlot]; omega) _]
      exact hrej 3
  have hread : ∀ j : Fin 4, tmid.slot (4 * c + 1 + j.val) =
      if j = pk then some .Parent else none := by
    intro j
    rw [htmid]
    by_cases hj : j = pk
    · rw [if_pos hj, hj]
      exact QuadTree.slot_setSlot_self (by
        simp only [QuadTree.length_setSlot]
        have := pk.isLt
        omega) _
    · rw [if_neg hj]
      have hne : 4 * c + 1 + (pk : Nat) ≠ 4 * c + 1 + j.val := by
        have : (pk : Nat) ≠ j.val := fun he => hj (Fin.ext he.symm)
        omega
      rw [QuadTree.slot_setSlot_ne hne]
      exact hchain (4 * c + 1 + j.val) (by omega) (by have := j.isLt; omega)
  have hnoop : genRecChildren src fuel tmid c (4 * c + 1 + (pk : Nat))
      (candPhase src n occ st).2.1 (genPick src (candPhase src n occ st).2.2).2 =
      (tmid, (candPhase src n occ st).2.1,
        (genPick src (candPhase src n occ st).2.2).2) := by
    refine genRecChildren_noop src fuel tmid c _ _ _ (fun j m hjm => ?_)
    rw [hread j] at hjm
    split at hjm
    · exact GenericGenoNode.noConfusion (Option.some.inj hjm)
    · exact Option.noConfusion hjm
  rw [hnoop]
  obtain ⟨ext, hext⟩ := candPhase_occ_extends src n occ st
  refine ⟨tmid, ext, _, by rw [hext], hlen5, ?_, ?_, ?_, ?_⟩
  · intro j hj
    rw [htmid]
    have hp4 : (pk : Nat) ≤ 3 := by omega
    rw [QuadTree.slot_setSlot_ne (by omega), QuadTree.slot_setSlot_ne (by omega),
      QuadTree.slot_setSlot_ne (by omega), QuadTree.slot_setSlot_ne (by omega),
      QuadTree.slot_setSlot_ne (by omega)]
  · intro j
    rw [hread j]
    split
    · exact Or.inr rfl
    · exact Or.inl rfl
  · intro m _ _ _
    exact ⟨pk, hread⟩
  · intro hdisj
    exfalso
    rcases hdisj with hd | hd | hd | hd
    · exact hcp hd
    · rw [hn] at hd; exact Option.noConfusion hd
    · rw [hn] at hd
      injection hd with hd
      exact GenericGenoNode.noConfusion hd
    · omega

/-- Per-direction facts about the candidate phase: each slot is empty or an
accepted limb with bounded sizes, flush placement, its box on the returned
occupancy list, and inclusive-test separation from every earlier accepted
sibling. -/
theorem candPhase_spec (src : RandSrc) (node : GenoNode) (occ : List Region)
    (st : RandState) :
    ∀ d : Fin 4,
      candRes (candPhase src node occ st) d = none ∨
      ∃ n, candRes (candPhase src node occ st) d = some (.Child n) ∧
        25 ≤ n.size.1 ∧ 25 ≤ n.size.2 ∧ n.center = candCenter node d.val n.size ∧
        boxOf n.center n.size ∈ (candPhase src node occ st).2.1 ∧
        ∀ d' : Fin 4, d'.val < d.val → ∀ n',
          candRes (candPhase src node occ st) d' = some (.Child n') →
          inclOverlapTest (boxOf n.center n.size) (boxOf n'.center n'.size) = false := by
  rcases h1 : rand_nodes src node 0 occ st with ⟨r1, o1, z1⟩
  rcases h2 : rand_nodes src node 1 o1 z1 with ⟨r2, o2, z2⟩
  rcases h3 : rand_nodes src node 2 o2 z2 with ⟨r3, o3, z3⟩
  rcases h4 : rand_nodes src node 3 o3 z3 with ⟨r4, o4, z4⟩
  have hC : candPhase src node occ st = ((r1, r2, r3, r4), o4, z4) := by
    unfold candPhase
    dsimp only
    rw [h1]
    dsimp only
    rw [h2]
    dsimp only
    rw [h3]
    dsimp only
    rw [h4]
  have S0 := rand_nodes_spec src node 0 occ st
  rw [h1] at S0
  dsimp only at S0
  have S1 := rand_nodes_spec src node 1 o1 z1
  rw [h2] at S1
  dsimp only at S1
  have S2 := rand_nodes_spec src node 2 o2 z2
  rw [h3] at S2
  dsimp only at S2
  have S3 := rand_nodes_spec src node 3 o3 z3
  rw [h4] at S3
  dsimp only at S3
  have E2 : ∃ e, o2 = o1 ++ e := by
    rcases S1 with ⟨-, e, he⟩ | ⟨n, -, -, -, -, he, -⟩
    · exact ⟨e, he⟩
    · exact ⟨_, he⟩
  have E3 : ∃ e, o3 = o2 ++ e := by
    rcases S2 with ⟨-, e, he⟩ | ⟨n, -, -, -, -, he, -⟩
    · exact ⟨e, he⟩
    · exact ⟨_, he⟩
  have E4 : ∃ e, o4 = o3 ++ e := by
    rcases S3 with ⟨-, e, he⟩ | ⟨n, -, -, -, -, he, -⟩
    · exact ⟨e, he⟩
    · exact ⟨_, he⟩
  have lift12 : ∀ b : Region, b ∈ o1 → b ∈ o2 := by
    obtain ⟨e, he⟩ := E2
    rw [he]
    exact fun b hb => List.mem_append_left _ hb
  have lift23 : ∀ b : Region, b ∈ o2 → b ∈ o3 := by
    obtain ⟨e, he⟩ := E3
    rw [he]
    exact fun b hb => List.mem_append_left _ hb
  have lift34 : ∀ b : Region, b ∈ o3 → b ∈ o4 := by
    obtain ⟨e, he⟩ := E4
    rw [he]
    exact fun b hb => List.mem_append_left _ hb
  -- membership of each accepted stage's box in that stage's output list
  have mem1 : ∀ n, r1 = some (.Child n) → boxOf n.center n.size ∈ o1 := by
    intro n hn
    rcases S0 with ⟨hnone, -⟩ | ⟨m, hm, -, -, -, hocc, -⟩
    · rw [hnone] at hn; exact Option.noConfusion hn
    · rw [hm] at hn
      injection hn with hn
      cases hn
      rw [hocc]
      simp
  have mem2 : ∀ n, r2 = some (.Child n) → boxOf n.center n.size ∈ o2 := by
    intro n hn
    rcases S1 with ⟨hnone, -⟩ | ⟨m, hm, -, -, -, hocc, -⟩
    · rw [hnone] at hn; exact Option.noConfusion hn
    · rw [hm] at hn
      injection hn with hn
      cases hn
      rw [hocc]
      simp
  have mem3 : ∀ n, r3 = some (.Child n) → boxOf n.center n.size ∈ o3 := by
    intro n hn
    rcases S2 with ⟨hnone, -⟩ | ⟨m, hm, -, -, -, hocc, -⟩
    · rw [hnone] at hn; exact Option.noConfusion hn
    · rw [hm] at hn
      injection hn with hn
      cases hn
      rw [hocc]
      simp
  rw [hC]
  intro d
  fin_cases d
  · rcases S0 with ⟨hr, -⟩ | ⟨n, hr, ha, hb, hc, hocc, hclean⟩
    · exact Or.inl (by simpa [candRes] using hr)
    · refine Or.inr ⟨n, by simpa [candRes] using hr, ha, hb, hc, ?_, ?_⟩
      · exact lift34 _ (lift23 _ (lift12 _ (mem1 n hr)))
      · intro d' hlt n' hcand
        exact absurd hlt (by simp)
  · rcases S1 with ⟨hr, -⟩ | ⟨n, hr, ha, hb, hc, hocc, hclean⟩
    · exact Or.inl (by simpa [candRes] using hr)
    · refine Or.inr ⟨n, by simpa [candRes] using hr, ha, hb, hc, ?_, ?_⟩
      · exact lift34 _ (lift23 _ (mem2 n hr))
      · intro d' hlt n' hcand
        fin_cases d'
        · simp only [candRes] at hcand
          exact hclean _ (mem1 n' hcand)
        · exact absurd hlt (by simp)
        · exact absurd hlt (by simp)
        · exact absurd hlt (by simp)
  · rcases S2 with ⟨hr, -⟩ | ⟨n, hr, ha, hb, hc, hocc, hclean⟩
    · exact Or.inl (by simpa [candRes] using hr)
    · refine Or.inr ⟨n, by simpa [candRes] using hr, ha, hb, hc, ?_, ?_⟩
      · exact lift34 _ (mem3 n hr)
      · intro d' hlt n' hcand
        fin_cases d'
        · simp only [candRes] at hcand
          exact hclean _ (lift12 _ (mem1 n' hcand))
        · simp only [candRes] at hcand
          exact hclean _ (mem2 n' hcand)
        · exact absurd hlt (by simp)
        · exact absurd hlt (by simp)
  · rcases S3 with ⟨hr, -⟩ | ⟨n, hr, ha, hb, hc, hocc, hclean⟩
    · exact Or.inl (by simpa [candRes] using hr)
    · refine Or.inr ⟨n, by simpa [candRes] using hr, ha, hb, hc, ?_, ?_⟩
      · rw [hocc]
        simp
      · intro d' hlt n' hcand
        fin_cases d'
        · simp only [candRes] at hcand
          exact hclean _ (lift23 _ (lift12 _ (mem1 n' hcand)))
        · simp only [candRes] at hcand
          exact hclean _ (lift23 _ (mem2 n' hcand))
        · simp only [candRes] at hcand
          exact hclean _ (mem3 n' hcand)
        · exact absurd hlt (by simp)

/-- Every genotype `new_rand` returns satisfies the structural
characterisation `NewRandGood`. -/
theorem new_rand_good (src : RandSrc) : NewRandGood (BlobGeno.new_rand src) := by
  unfold BlobGeno.new_rand BlobGeno.mkDefault
  dsimp only
  have hnewlen : (QuadTree.new GenericGenoNode GENO_MAX_DEPTH).nodes.length = 17 := by
    simp [QuadTree.new, GENO_MAX_DEPTH]
  have hlen0 : ((QuadTree.new GenericGenoNode GENO_MAX_DEPTH).setSlot 0
      (some (.Child GenoNode.default))).nodes.length = 17 := by
    rw [QuadTree.length_setSlot]
    exact hnewlen
  rw [hlen0, show (17 : Nat) = 16 + 1 from rfl]
  have hguard : (((QuadTree.new GenericGenoNode GENO_MAX_DEPTH).setSlot 0
      (some (.Child GenoNode.default))).nodes[4 * 0 + 4]?).isNone = false := by
    have h4 : ((QuadTree.new GenericGenoNode GENO_MAX_DEPTH).setSlot 0
        (some (.Child GenoNode.default))).nodes[4 * 0 + 4]? = some none := by
      unfold QuadTree.setSlot
      dsimp only
      rw [List.getElem?_set_ne (by omega)]
      unfold QuadTree.new
      dsimp only
      rw [List.getElem?_replicate, if_pos (by norm_num [GENO_MAX_DEPTH])]
    rw [h4]
    rfl
  have hs0 : ((QuadTree.new GenericGenoNode GENO_MAX_DEPTH).setSlot 0
      (some (.Child GenoNode.default))).slot 0 = some (.Child GenoNode.default) :=
    QuadTree.slot_setSlot_self (by omega) _
  rw [genBuild_child_eq src 16 _ 0 [] ⟨0, 0, 0⟩ GenoNode.default hguard hs0]
  simp only [Nat.mul_zero, Nat.zero_add]
  set C := candPhase src GenoNode.default [] ⟨0, 0, 0⟩ with hCdef
  set pk : Fin 4 := (genPick src C.2.2).1 with hpkdef
  set stP : RandState := (genPick src C.2.2).2 with hstPdef
  have CS := candPhase_spec src GenoNode.default [] ⟨0, 0, 0⟩
  rw [← hCdef] at CS
  have hpk3 : (pk : Nat) ≤ 3 := by have := pk.isLt; omega
  set T5 : QuadTree GenericGenoNode :=
    (((((QuadTree.new GenericGenoNode GENO_MAX_DEPTH).setSlot 0
      (some (.Child GenoNode.default))).setSlot 1 (candRes C 0)).setSlot 2
      (candRes C 1)).setSlot 3 (candRes C 2)).setSlot 4 (candRes C 3)
      |>.setSlot (1 + (pk : Nat)) (some .Parent) with hT5def
  have hT5len : T5.nodes.length = 17 := by
    rw [hT5def]
    simp only [QuadTree.length_setSlot]
    exact hlen0
  have hT5slot0 : T5.slot 0 = some (.Child GenoNode.default) := by
    rw [hT5def]
    rw [QuadTree.slot_setSlot_ne (show 1 + (pk : Nat) ≠ 0 by omega),
      QuadTree.slot_setSlot_ne (show (4 : Nat) ≠ 0 by omega),
      QuadTree.slot_setSlot_ne (show (3 : Nat) ≠ 0 by omega),
      QuadTree.slot_setSlot_ne (show (2 : Nat) ≠ 0 by omega),
      QuadTree.slot_setSlot_ne (show (1 : Nat) ≠ 0 by omega)]
    exact hs0
  have hT5high : ∀ i, 5 ≤ i → T5.slot i = none := by
    intro i hi
    by_cases h17 : i < 17
    · rw [hT5def]
      rw [QuadTree.slot_setSlot_ne (show 1 + (pk : Nat) ≠ i by omega),
        QuadTree.slot_setSlot_ne (show (4 : Nat) ≠ i by omega),
        QuadTree.slot_setSlot_ne (show (3 : Nat) ≠ i by omega),
        QuadTree.slot_setSlot_ne (show (2 : Nat) ≠ i by omega),
        QuadTree.slot_setSlot_ne (show (1 : Nat) ≠ i by omega),
        QuadTree.slot_setSlot_ne (show (0 : Nat) ≠ i by omega)]
      unfold QuadTree.slot QuadTree.new
      dsimp only
      rw [List.getElem?_replicate]
      split <;> rfl
    · exact QuadTree.slot_of_le (by omega)
  have hT5p : T5.slot (1 + (pk : Nat)) = some .Parent := by
    rw [hT5def]
    exact QuadTree.slot_setSlot_self (by
      simp only [QuadTree.length_setSlot]
      omega) _
  have hT51 : (1 : Nat) ≠ 1 + (pk : Nat) → T5.slot 1 = candRes C 0 := by
    intro hne
    rw [hT5def]
    rw [QuadTree.slot_setSlot_ne (Ne.symm hne),
      QuadTree.slot_setSlot_ne (show (4 : Nat) ≠ 1 by omega),
      QuadTree.slot_setSlot_ne (show (3 : Nat) ≠ 1 by omega),
      QuadTree.slot_setSlot_ne (show (2 : Nat) ≠ 1 by omega)]
    exact QuadTree.slot_setSlot_self (by rw [QuadTree.length_setSlot]; omega) _
  have hT52 : (2 : Nat) ≠ 1 + (pk : Nat) → T5.slot 2 = candRes C 1 := by
    intro hne
    rw [hT5def]
    rw [QuadTree.slot_setSlot_ne (Ne.symm hne),
      QuadTree.slot_setSlot_ne (show (4 : Nat) ≠ 2 by omega),
      QuadTree.slot_setSlot_ne (show (3 : Nat) ≠ 2 by omega)]
    exact QuadTree.slot_setSlot_self (by simp only [QuadTree.length_setSlot]; omega) _
  have hT53 : (3 : Nat) ≠ 1 + (pk : Nat) → T5.slot 3 = candRes C 2 := by
    intro hne
    rw [hT5def]
    rw [QuadTree.slot_setSlot_ne (Ne.symm hne),
      QuadTree.slot_setSlot_ne (show (4 : Nat) ≠ 3 by omega)]
    exact QuadTree.slot_setSlot_self (by simp only [QuadTree.length_setSlot]; omega) _
  have hT54 : (4 : Nat) ≠ 1 + (pk : Nat) → T5.slot 4 = candRes C 3 := by
    intro hne
    rw [hT5def]
    rw [QuadTree.slot_setSlot_ne (Ne.symm hne)]
    exact QuadTree.slot_setSlot_self (by simp only [QuadTree.length_setSlot]; omega) _
  unfold genRecChildren
  dsimp only
  simp only [Nat.mul_zero, Nat.zero_add]
  rw [show (16 : Nat) = 15 + 1 from rfl]
  -- step 1
  have hkids1 : ∀ j : Fin 4, T5.slot (4 * 1 + 1 + j.val) = none := fun j =>
    hT5high _ (by omega)
  have hcase1 : 1 = 1 + (pk : Nat) ∨ T5.slot 1 = none ∨ T5.slot 1 = some .Parent ∨
      ∃ n, T5.slot 1 = some (.Child n) ∧ (T5.nodes.length ≤ 4 * 1 + 4 ∨
        (0 ≤ n.size.1 ∧ 0 ≤ n.size.2 ∧ boxOf n.center n.size ∈ C.2.1)) := by
    by_cases hp : (1 : Nat) = 1 + (pk : Nat)
    · exact Or.inl hp
    · rw [hT51 hp]
      rcases CS 0 with hnone | ⟨n, hn, ha, hb, -, hm, -⟩
      · exact Or.inr (Or.inl hnone)
      · exact Or.inr (Or.inr (Or.inr ⟨n, hn,
          Or.inr ⟨by linarith, by linarith, hm⟩⟩))
  obtain ⟨t1, e1, s1, hq1, hlen1, hout1, hkid1, hproc1, hun1⟩ :=
    genBuild_step_cases src 15 T5 1 (1 + (pk : Nat)) C.2.1 stP hkids1 hcase1
  rw [hq1]
  dsimp only
  -- step 2
  have hkids2 : ∀ j : Fin 4, t1.slot (4 * 2 + 1 + j.val) = none := fun j => by
    rw [hout1 _ (Or.inr (by have := j.isLt; omega))]
    exact hT5high _ (by omega)
  have h2T5 : t1.slot 2 = T5.slot 2 := hout1 2 (Or.inl (by omega))
  have hcase2 : 2 = 1 + (pk : Nat) ∨ t1.slot 2 = none ∨ t1.slot 2 = some .Parent ∨
      ∃ n, t1.slot 2 = some (.Child n) ∧ (t1.nodes.length ≤ 4 * 2 + 4 ∨
        (0 ≤ n.size.1 ∧ 0 ≤ n.size.2 ∧ boxOf n.center n.size ∈ C.2.1 ++ e1)) := by
    by_cases hp : (2 : Nat) = 1 + (pk : Nat)
    · exact Or.inl hp
    · rw [h2T5, hT52 hp]
      rcases CS 1 with hnone | ⟨n, hn, ha, hb, -, hm, -⟩
      · exact Or.inr (Or.inl hnone)
      · exact Or.inr (Or.inr (Or.inr ⟨n, hn,
          Or.inr ⟨by linarith, by linarith, List.mem_append_left _ hm⟩⟩))
  obtain ⟨t2, e2, s2, hq2, hlen2, hout2, hkid2, hproc2, hun2⟩ :=
    genBuild_step_cases src 15 t1 2 (1 + (pk : Nat)) (C.2.1 ++ e1) s1 hkids2 hcase2
  rw [hq2]
  dsimp only
  -- step 3
  have hkids3 : ∀ j : Fin 4, t2.slot (4 * 3 + 1 + j.val) = none := fun j => by
    rw [hout2 _ (Or.inr (by have := j.isLt; omega)),
      hout1 _ (Or.inr (by have := j.isLt; omega))]
    exact hT5high _ (by omega)
  have h3T5 : t2.slot 3 = T5.slot 3 := by
    rw [hout2 3 (Or.inl (by omega)), hout1 3 (Or.inl (by omega))]
  have hcase3 : 3 = 1 + (pk : Nat) ∨ t2.slot 3 = none ∨ t2.slot 3 = some .Parent ∨
      ∃ n, t2.slot 3 = some (.Child n) ∧ (t2.nodes.length ≤ 4 * 3 + 4 ∨
        (0 ≤ n.size.1 ∧ 0 ≤ n.size.2 ∧ boxOf n.center n.size ∈ C.2.1 ++ e1 ++ e2)) := by
    by_cases hp : (3 : Nat) = 1 + (pk : Nat)
    · exact Or.inl hp
    · rw [h3T5, hT53 hp]
      rcases CS 2 with hnone | ⟨n, hn, ha, hb, -, hm, -⟩
      · exact Or.inr (Or.inl hnone)
      · exact Or.inr (Or.inr (Or.inr ⟨n, hn,
          Or.inr ⟨by linarith, by linarith,
            List.mem_append_left _ (List.mem_append_left _ hm)⟩⟩))
  obtain ⟨t3, e3, s3, hq3, hlen3, hout3, hkid3, hproc3, hun3⟩ :=
    genBuild_step_cases src 15 t2 3 (1 + (pk : Nat)) (C.2.1 ++ e1 ++ e2) s2 hkids3 hcase3
  rw [hq3]
  dsimp only
  -- step 4
  have hkids4 : ∀ j : Fin 4, t3.slot (4 * 4 + 1 + j.val) = none := fun j => by
    rw [hout3 _ (Or.inr (by have := j.isLt; omega)),
      hout2 _ (Or.inr (by have := j.isLt; omega)),
      hout1 _ (Or.inr (by have := j.isLt; omega))]
    exact hT5high _ (by omega)
  have h4T5 : t3.slot 4 = T5.slot 4 := by
    rw [hout3 4 (Or.inl (by omega)), hout2 4 (Or.inl (by omega)),
      hout1 4 (Or.inl (by omega))]
  have hlen3' : t3.nodes.length = 17 := by
    rw [hlen3, hlen2, hlen1, hT5len]
  have hcase4 : 4 = 1 + (pk : Nat) ∨ t3.slot 4 = none ∨ t3.slot 4 = some .Parent ∨
      ∃ n, t3.slot 4 = some (.Child n) ∧ (t3.nodes.length ≤ 4 * 4 + 4 ∨
        (0 ≤ n.size.1 ∧ 0 ≤ n.size.2 ∧
          boxOf n.center n.size ∈ C.2.1 ++ e1 ++ e2 ++ e3)) := by
    by_cases hp : (4 : Nat) = 1 + (pk : Nat)
    · exact Or.inl hp
    · rw [h4T5, hT54 hp]
      rcases CS 3 with hnone | ⟨n, hn, -, -, -, -, -⟩
      · exact Or.inr (Or.inl hnone)
      · exact Or.inr (Or.inr (Or.inr ⟨n, hn, Or.inl (by omega)⟩))
  obtain ⟨t4, e4, s4, hq4, hlen4, hout4, hkid4, hproc4, hun4⟩ :=
    genBuild_step_cases src 15 t3 4 (1 + (pk : Nat)) (C.2.1 ++ e1 ++ e2 ++ e3) s3
      hkids4 hcase4
  rw [hq4]
  dsimp only
  -- final tree facts
  have hfinlen : t4.nodes.length = 17 := by rw [hlen4]; exact hlen3'
  have hfin_low : ∀ j, j ≤ 4 → t4.slot j = T5.slot j := by
    intro j hj
    rw [hout4 j (Or.inl (by omega)), hout3 j (Or.inl (by omega)),
      hout2 j (Or.inl (by omega)), hout1 j (Or.inl (by omega))]
  have hfin_k1 : ∀ j, 5 ≤ j → j ≤ 8 → t4.slot j = t1.slot j := by
    intro j h5 h8
    rw [hout4 j (Or.inl (by omega)), hout3 j (Or.inl (by omega)),
      hout2 j (Or.inl (by omega))]
  have hfin_k2 : ∀ j, 9 ≤ j → j ≤ 12 → t4.slot j = t2.slot j := by
    intro j h9 h12
    rw [hout4 j (Or.inl (by omega)), hout3 j (Or.inl (by omega))]
  have hfin_k3 : ∀ j, 13 ≤ j → j ≤ 16 → t4.slot j = t3.slot j := by
    intro j h13 h16
    rw [hout4 j (Or.inl (by omega))]
  have hT5i : ∀ i, 1 ≤ i → i ≤ 4 → i ≠ 1 + (pk : Nat) →
      ∃ d : Fin 4, d.val = i - 1 ∧ T5.slot i = candRes C d := by
    intro i h1 h4 hne
    have : i = 1 ∨ i = 2 ∨ i = 3 ∨ i = 4 := by omega
    rcases this with rfl | rfl | rfl | rfl
    · exact ⟨0, rfl, hT51 hne⟩
    · exact ⟨1, rfl, hT52 hne⟩
    · exact ⟨2, rfl, hT53 hne⟩
    · exact ⟨3, rfl, hT54 hne⟩
  refine ⟨hfinlen, ?_, ?_, ?_, ?_, ?_, ?_⟩
  · rw [hfin_low 0 (by omega)]
    exact hT5slot0
  · -- unique sentinel among slots 1..4
    refine ⟨1 + (pk : Nat), by omega, by omega, ?_⟩
    intro i h1 h4
    constructor
    · intro hp
      by_contra hne
      rw [hfin_low i (by omega)] at hp
      obtain ⟨d, -, hd⟩ := hT5i i h1 h4 hne
      rw [hd] at hp
      rcases CS d with hnone | ⟨n, hn, -, -, -, -, -⟩
      · rw [hnone] at hp; exact Option.noConfusion hp
      · rw [hn] at hp
        injection hp with hp
        exact GenericGenoNode.noConfusion hp
    · intro hi
      subst hi
      rw [hfin_low _ (by omega)]
      exact hT5p
  · -- classification of slots 1..4
    intro i h1 h4
    rw [hfin_low i (by omega)]
    by_cases hne : i = 1 + (pk : Nat)
    · subst hne
      exact Or.inr (Or.inl hT5p)
    · obtain ⟨d, hdv, hd⟩ := hT5i i h1 h4 hne
      rw [hd]
      rcases CS d with hnone | ⟨n, hn, ha, hb, hc, -, -⟩
      · exact Or.inl hnone
      · refine Or.inr (Or.inr ⟨n, hn, ha, hb, ?_⟩)
        rw [← hdv]
        exact hc
  · -- pairwise separation of accepted slots 1..4
    intro i i' h1 hlt h4 n n' hni hni'
    have hnei : i ≠ 1 + (pk : Nat) := by
      intro he
      rw [hfin_low i (by omega), he, hT5p] at hni
      injection hni with hni
      exact GenericGenoNode.noConfusion hni
    have hnei' : i' ≠ 1 + (pk : Nat) := by
      intro he
      rw [hfin_low i' (by omega), he, hT5p] at hni'
      injection hni' with hni'
      exact GenericGenoNode.noConfusion hni'
    obtain ⟨d, hdv, hd⟩ := hT5i i (by omega) (by omega) hnei
    obtain ⟨d', hdv', hd'⟩ := hT5i i' (by omega) (by omega) hnei'
    rw [hfin_low i (by omega), hd] at hni
    rw [hfin_low i' (by omega), hd'] at hni'
    rcases CS d' with hnone | ⟨m, hm, -, -, -, -, hpair⟩
    · rw [hnone] at hni'; exact Option.noConfusion hni'
    · rw [hm] at hni'
      injection hni' with hni'
      cases hni'
      exact hpair d (by omega) n hni
  · -- depth-1 nodes at 1..3: children patterns
    intro c h1 h3
    have hlen1' : t1.nodes.length = 17 := by rw [hlen1, hT5len]
    have hlen2' : t2.nodes.length = 17 := by rw [hlen2, hlen1, hT5len]
    have hcases : c = 1 ∨ c = 2 ∨ c = 3 := by omega
    rcases hcases with rfl | rfl | rfl
    · constructor
      · intro n hn
        rw [hfin_low 1 (by omega)] at hn
        have hne : (1 : Nat) ≠ 1 + (pk : Nat) := by
          intro he
          rw [he, hT5p] at hn
          injection hn with hn
          exact GenericGenoNode.noConfusion hn
        obtain ⟨kF, hkF⟩ := hproc1 n hn hne (by omega)
        refine ⟨kF.val, kF.isLt, ?_⟩
        intro j hj
        rw [hfin_k1 _ (by omega) (by omega)]
        have hjf : t1.slot (4 * 1 + 1 + j) =
            if (⟨j, hj⟩ : Fin 4) = kF then some .Parent else none := hkF ⟨j, hj⟩
        rw [hjf]
        by_cases hk : j = (kF : Nat)
        · rw [if_pos (Fin.ext hk), if_pos hk]
        · rw [if_neg (fun he => hk (congrArg Fin.val he)), if_neg hk]
      · intro hnp j hj
        rw [hfin_low 1 (by omega)] at hnp
        have ht1 : t1 = T5 := hun1 (Or.inr (hnp.imp id Or.inl))
        rw [hfin_k1 _ (by omega) (by omega), ht1]
        exact hT5high _ (by omega)
    · constructor
      · intro n hn
        rw [hfin_low 2 (by omega), ← h2T5] at hn
        have hne : (2 : Nat) ≠ 1 + (pk : Nat) := by
          intro he
          rw [h2T5, he, hT5p] at hn
          injection hn with hn
          exact GenericGenoNode.noConfusion hn
        obtain ⟨kF, hkF⟩ := hproc2 n hn hne (by omega)
        refine ⟨kF.val, kF.isLt, ?_⟩
        intro j hj
        rw [hfin_k2 _ (by omega) (by omega)]
        have hjf : t2.slot (4 * 2 + 1 + j) =
            if (⟨j, hj⟩ : Fin 4) = kF then some .Parent else none := hkF ⟨j, hj⟩
        rw [hjf]
        by_cases hk : j = (kF : Nat)
        · rw [if_pos (Fin.ext hk), if_pos hk]
        · rw [if_neg (fun he => hk (congrArg Fin.val he)), if_neg hk]
      · intro hnp j hj
        rw [hfin_low 2 (by omega), ← h2T5] at hnp
        have ht2 : t2 = t1 := hun2 (Or.inr (hnp.imp id Or.inl))
        rw [hfin_k2 _ (by omega) (by omega), ht2, hout1 _ (Or.inr (by omega))]
        exact hT5high _ (by omega)
    · constructor
      · intro n hn
        rw [hfin_low 3 (by omega), ← h3T5] at hn
        have hne : (3 : Nat) ≠ 1 + (pk : Nat) := by
          intro he
          rw [h3T5, he, hT5p] at hn
          injection hn with hn
          exact GenericGenoNode.noConfusion hn
        obtain ⟨kF, hkF⟩ := hproc3 n hn hne (by omega)
        refine ⟨kF.val, kF.isLt, ?_⟩
        intro j hj
        rw [hfin_k3 _ (by omega) (by omega)]
        have hjf : t3.slot (4 * 3 + 1 + j) =
            if (⟨j, hj⟩ : Fin 4) = kF then some .Parent else none := hkF ⟨j, hj⟩
        rw [hjf]
        by_cases hk : j = (kF : Nat)
        · rw [if_pos (Fin.ext hk), if_pos hk]
        · rw [if_neg (fun he => hk (congrArg Fin.val he)), if_neg hk]
      · intro hnp j hj
        rw [hfin_low 3 (by omega), ← h3T5] at hnp
        have ht3 : t3 = t2 := hun3 (Or.inr (hnp.imp id Or.inl))
        rw [hfin_k3 _ (by omega) (by omega), ht3, hout2 _ (Or.inr (by omega)),
          hout1 _ (Or.inr (by omega))]
        exact hT5high _ (by omega)
  · -- everything at index 5 and above is empty or sentinel
    intro i h5
    by_cases h17 : i < 17
    · have : ∃ c j, 1 ≤ c ∧ c ≤ 3 ∧ j < 4 ∧ i = 4 * c + 1 + j :=
        ⟨(i - 1) / 4, (i - 1) % 4, by omega, by omega, by omega, by omega⟩
      obtain ⟨c, j, hc1, hc3, hj4, hij⟩ := this
      have : c = 1 ∨ c = 2 ∨ c = 3 := by omega
      rcases this with rfl | rfl | rfl
      · rw [hij, hfin_k1 _ (by omega) (by omega)]
        have := hkid1 ⟨j, hj4⟩
        exact this
      · rw [hij, hfin_k2 _ (by omega) (by omega)]
        have := hkid2 ⟨j, hj4⟩
        exact this
      · rw [hij, hfin_k3 _ (by omega) (by omega)]
        have := hkid3 ⟨j, hj4⟩
        exact this
    · exact Or.inl (QuadTree.slot_of_le (show t4.nodes.length ≤ i by omega))

/-! ## Validity of generated genotypes -/

theorem tolOverlapTest_false_xlo (eps : ℚ) (b r : Region) (h : r.xmax - eps ≤ b.xmin) :
    tolOverlapTest eps b r = false := by
  unfold tolOverlapTest
  rw [decide_eq_false (fun hc : b.xmin < r.xmax - eps ∧ b.xmax - eps > r.xmin => by
    rcases hc with ⟨h1, -⟩
    linarith), Bool.false_and]

theorem tolOverlapTest_false_xhi (eps : ℚ) (b r : Region) (h : b.xmax - eps ≤ r.xmin) :
    tolOverlapTest eps b r = false := by
  unfold tolOverlapTest
  rw [decide_eq_false (fun hc : b.xmin < r.xmax - eps ∧ b.xmax - eps > r.xmin => by
    rcases hc with ⟨-, h2⟩
    rw [gt_iff_lt] at h2
    linarith), Bool.false_and]

theorem tolOverlapTest_false_ylo (eps : ℚ) (b r : Region) (h : r.ymax - eps ≤ b.ymin) :
    tolOverlapTest eps b r = false := by
  unfold tolOverlapTest
  rw [decide_eq_false (fun hc : b.ymin < r.ymax - eps ∧ b.ymax - eps > r.ymin => by
    rcases hc with ⟨h1, -⟩
    linarith), Bool.and_false]

theorem tolOverlapTest_false_yhi (eps : ℚ) (b r : Region) (h : b.ymax - eps ≤ r.ymin) :
    tolOverlapTest eps b r = false := by
  unfold tolOverlapTest
  rw [decide_eq_false (fun hc : b.ymin < r.ymax - eps ∧ b.ymax - eps > r.ymin => by
    rcases hc with ⟨-, h2⟩
    rw [gt_iff_lt] at h2
    linarith), Bool.and_false]

/-- A candidate placed flush against a box never passes the tolerant test
against that box when the tolerance is positive. -/
theorem tol_flush (eps : ℚ) (heps : 0 < eps) (p : GenoNode) (d : Nat) (size : ℚ × ℚ) :
    tolOverlapTest eps (boxOf (candCenter p d size) size) (boxOf p.center p.size) =
      false := by
  unfold candCenter
  split_ifs
  · exact tolOverlapTest_false_yhi eps _ _ (by
      unfold boxOf
      dsimp only
      linarith)
  · exact tolOverlapTest_false_xhi eps _ _ (by
      unfold boxOf
      dsimp only
      linarith)
  · exact tolOverlapTest_false_xlo eps _ _ (by
      unfold boxOf
      dsimp only
      linarith)
  · exact tolOverlapTest_false_ylo eps _ _ (by
      unfold boxOf
      dsimp only
      linarith)

/-- With a nonnegative tolerance the tolerant test accepts at most what the
inclusive test accepts. -/
theorem tol_of_incl_false (eps : ℚ) (heps : 0 ≤ eps) (b r : Region)
    (h : inclOverlapTest b r = false) : tolOverlapTest eps b r = false := by
  unfold inclOverlapTest at h
  rcases Bool.and_eq_false_iff.mp h with hx | hy
  · have hx' := of_decide_eq_false hx
    rw [not_and_or] at hx'
    rcases hx' with h1 | h2
    · rw [not_le] at h1
      exact tolOverlapTest_false_xlo eps b r (by linarith)
    · rw [ge_iff_le, not_le] at h2
      exact tolOverlapTest_false_xhi eps b r (by linarith)
  · have hy' := of_decide_eq_false hy
    rw [not_and_or] at hy'
    rcases hy' with h1 | h2
    · rw [not_le] at h1
      exact tolOverlapTest_false_ylo eps b r (by linarith)
    · rw [ge_iff_le, not_le] at h2
      exact tolOverlapTest_false_yhi eps b r (by linarith)

/-- `checkValid` at an empty or sentinel slot is a valid leaf. -/
theorem checkValid_leaf (eps : ℚ) (t : QuadTree GenericGenoNode) (occ : List Region)
    (index : Nat) (h : t.slot index = none ∨ t.slot index = some .Parent) :
    checkValid eps t occ index = (true, occ) := by
  unfold checkValid
  split
  · rename_i cur heq
    rcases h with h | h
    · rw [h] at heq
      exact Option.noConfusion heq
    · rw [h] at heq
      injection heq with heq
      exact GenericGenoNode.noConfusion heq
  · rfl

/-- `checkValid` at a limb slot: one unfolding of the recursion. -/
theorem checkValid_child_eq (eps : ℚ) (t : QuadTree GenericGenoNode) (occ : List Region)
    (index : Nat) (cur : GenoNode) (h : t.slot index = some (.Child cur)) :
    checkValid eps t occ index =
      if (is_overlapped_eps eps cur.center cur.size occ).1 then
        (false, (is_overlapped_eps eps cur.center cur.size occ).2)
      else
        let r1 := checkValid eps t (is_overlapped_eps eps cur.center cur.size occ).2
          (4 * index + 1)
        if r1.1 = false then r1 else
          let r2 := checkValid eps t r1.2 (4 * index + 2)
          if r2.1 = false then r2 else
            let r3 := checkValid eps t r2.2 (4 * index + 3)
            if r3.1 = false then r3 else
              checkValid eps t r3.2 (4 * index + 4) := by
  conv_lhs => rw [checkValid]
  split
  · rename_i cur' heq
    rw [h] at heq
    injection heq with heq
    injection heq with heq
    subst heq
    rfl
  · rename_i hne
    exact absurd h (hne cur)

/-- C1: for every random stream, the genotype `new_rand` returns passes the
independent `is_valid` re-walk for every positive tolerance: the
epsilon-shrunk tolerant overlap test finds no two visited limb boxes
overlapping. -/
theorem new_rand_is_valid (src : RandSrc) (eps : ℚ) (heps : 0 < eps) :
    BlobGeno.is_valid eps (BlobGeno.new_rand src) = true := by
  have G := new_rand_good src
  unfold NewRandGood at G
  obtain ⟨hlen, hroot, -, hclass, hpair, -, hhigh⟩ := G
  unfold BlobGeno.is_valid
  set t := (BlobGeno.new_rand src).vec_tree with ht
  have hleaf : ∀ occ idx, 5 ≤ idx → checkValid eps t occ idx = (true, occ) :=
    fun occ idx h => checkValid_leaf eps t occ idx (hhigh idx h)
  have step : ∀ c, 1 ≤ c → c ≤ 4 → ∀ occ : List Region,
      (∀ n, t.slot c = some (.Child n) →
        ∀ r ∈ occ, tolOverlapTest eps (boxOf n.center n.size) r = false) →
      ∃ ext, checkValid eps t occ c = (true, occ ++ ext) ∧
        ((t.slot c = none ∨ t.slot c = some .Parent) → ext = []) ∧
        (∀ n, t.slot c = some (.Child n) → ext = [boxOf n.center n.size]) := by
    intro c h1 h4 occ hno
    rcases hclass c h1 h4 with hc | hc | ⟨n, hc, -⟩
    · refine ⟨[], ?_, fun _ => rfl, ?_⟩
      · rw [List.append_nil]
        exact checkValid_leaf eps t occ c (Or.inl hc)
      · intro n hn
        rw [hc] at hn
        exact Option.noConfusion hn
    · refine ⟨[], ?_, fun _ => rfl, ?_⟩
      · rw [List.append_nil]
        exact checkValid_leaf eps t occ c (Or.inr hc)
      · intro n hn
        rw [hc] at hn
        injection hn with hn
        exact GenericGenoNode.noConfusion hn
    · refine ⟨[boxOf n.center n.size], ?_, ?_, ?_⟩
      · rw [checkValid_child_eq eps t occ c n hc]
        unfold is_overlapped_eps
        dsimp only
        have hany : (occ.any fun r => tolOverlapTest eps (boxOf n.center n.size) r)
            = false := by
          rw [Bool.eq_false_iff]
          intro hcon
          obtain ⟨r, hr, hrt⟩ := List.any_eq_true.mp hcon
          rw [hno n hc r hr] at hrt
          exact Bool.noConfusion hrt
        rw [hany, if_neg (by decide : ¬ (false = true))]
        rw [hleaf _ _ (by omega)]
        dsimp only
        rw [if_neg (by decide : ¬ (true = false))]
        rw [hleaf _ _ (by omega)]
        dsimp only
        rw [if_neg (by decide : ¬ (true = false))]
        rw [hleaf _ _ (by omega)]
        dsimp only
        rw [if_neg (by decide : ¬ (true = false))]
        exact hleaf _ _ (by omega)
      · intro hcc
        rcases hcc with hcc | hcc
        · rw [hc] at hcc
          exact Option.noConfusion hcc
        · rw [hc] at hcc
          injection hcc with hcc
          exact GenericGenoNode.noConfusion hcc
      · intro n' hn'
        rw [hc] at hn'
        injection hn' with hn'
        injection hn' with hn'
        rw [hn']
  have hflush : ∀ i, 1 ≤ i → i ≤ 4 → ∀ n, t.slot i = some (.Child n) →
      tolOverlapTest eps (boxOf n.center n.size)
        (boxOf GenoNode.default.center GenoNode.default.size) = false := by
    intro i h1 h4 n hn
    rcases hclass i h1 h4 with hc | hc | ⟨m, hm, -, -, hcen⟩
    · rw [hn] at hc
      exact Option.noConfusion hc
    · rw [hn] at hc
      injection hc with hc
      exact GenericGenoNode.noConfusion hc
    · rw [hn] at hm
      injection hm with hm
      injection hm with hm
      subst hm
      rw [show boxOf n.center n.size =
        boxOf (candCenter GenoNode.default (i - 1) n.size) n.size by rw [← hcen]]
      exact tol_flush eps heps GenoNode.default (i - 1) n.size
  rw [checkValid_child_eq eps t [] 0 GenoNode.default hroot]
  unfold is_overlapped_eps
  dsimp only
  rw [List.any_nil, if_neg (by decide : ¬ (false = true)), List.nil_append]
  simp only [Nat.mul_zero, Nat.zero_add]
  obtain ⟨e1, he1, hnil1, hch1⟩ := step 1 (by omega) (by omega)
      [boxOf GenoNode.default.center GenoNode.default.size] (by
    intro n hn r hr
    rw [List.mem_singleton] at hr
    subst hr
    exact hflush 1 (by omega) (by omega) n hn)
  rw [he1]
  dsimp only
  rw [if_neg (by decide : ¬ (true = false))]
  obtain ⟨e2, he2, hnil2, hch2⟩ := step 2 (by omega) (by omega)
      ([boxOf GenoNode.default.center GenoNode.default.size] ++ e1) (by
    intro n hn r hr
    rcases List.mem_append.mp hr with hr | hr
    · rw [List.mem_singleton] at hr
      subst hr
      exact hflush 2 (by omega) (by omega) n hn
    · rcases hclass 1 (by omega) (by omega) with hc | hc | ⟨n₁, hc, -⟩
      · rw [hnil1 (Or.inl hc)] at hr
        exact absurd hr (List.not_mem_nil r)
      · rw [hnil1 (Or.inr hc)] at hr
        exact absurd hr (List.not_mem_nil r)
      · rw [hch1 n₁ hc, List.mem_singleton] at hr
        subst hr
        exact tol_of_incl_false eps (le_of_lt heps) _ _
          (hpair 1 2 (by omega) (by omega) (by omega) n₁ n hc hn))
  rw [he2]
  dsimp only
  rw [if_neg (by decide : ¬ (true = false))]
  obtain ⟨e3, he3, hnil3, hch3⟩ := step 3 (by omega) (by omega)
      ([boxOf GenoNode.default.center GenoNode.default.size] ++ e1 ++ e2) (by
    intro n hn r hr
    rcases List.mem_append.mp hr with hr | hr
    · rcases List.mem_append.mp hr with hr | hr
      · rw [List.mem_singleton] at hr
        subst hr
        exact hflush 3 (by omega) (by omega) n hn
      · rcases hclass 1 (by omega) (by omega) with hc | hc | ⟨n₁, hc, -⟩
        · rw [hnil1 (Or.inl hc)] at hr
          exact absurd hr (List.not_mem_nil r)
        · rw [hnil1 (Or.inr hc)] at hr
          exact absurd hr (List.not_mem_nil r)
        · rw [hch1 n₁ hc, List.mem_singleton] at hr
          subst hr
          exact tol_of_incl_false eps (le_of_lt heps) _ _
            (hpair 1 3 (by omega) (by omega) (by omega) n₁ n hc hn)
    · rcases hclass 2 (by omega) (by omega) with hc | hc | ⟨n₂, hc, -⟩
      · rw [hnil2 (Or.inl hc)] at hr
        exact absurd hr (List.not_mem_nil r)
      · rw [hnil2 (Or.inr hc)] at hr
        exact absurd hr (List.not_mem_nil r)
      · rw [hch2 n₂ hc, List.mem_singleton] at hr
        subst hr
        exact tol_of_incl_false eps (le_of_lt heps) _ _
          (hpair 2 3 (by omega) (by omega) (by omega) n₂ n hc hn))
  rw [he3]
  dsimp only
  rw [if_neg (by decide : ¬ (true = false))]
  obtain ⟨e4, he4, -, -⟩ := step 4 (by omega) (by omega)
      ([boxOf GenoNode.default.center GenoNode.default.size] ++ e1 ++ e2 ++ e3) (by
    intro n hn r hr
    rcases List.mem_append.mp hr with hr | hr
    · rcases List.mem_append.mp hr with hr | hr
      · rcases List.mem_append.mp hr with hr | hr
        · rw [List.mem_singleton] at hr
          subst hr
          exact hflush 4 (by omega) (by omega) n hn
        · rcases hclass 1 (by omega) (by omega) with hc | hc | ⟨n₁, hc, -⟩
          · rw [hnil1 (Or.inl hc)] at hr
            exact absurd hr (List.not_mem_nil r)
          · rw [hnil1 (Or.inr hc)] at hr
            exact absurd hr (List.not_mem_nil r)
          · rw [hch1 n₁ hc, List.mem_singleton] at hr
            subst hr
            exact tol_of_incl_false eps (le_of_lt heps) _ _
              (hpair 1 4 (by omega) (by omega) (by omega) n₁ n hc hn)
      · rcases hclass 2 (by omega) (by omega) with hc | hc | ⟨n₂, hc, -⟩
        · rw [hnil2 (Or.inl hc)] at hr
          exact absurd hr (List.not_mem_nil r)
        · rw [hnil2 (Or.inr hc)] at hr
          exact absurd hr (List.not_mem_nil r)
        · rw [hch2 n₂ hc, List.mem_singleton] at hr
          subst hr
          exact tol_of_incl_false eps (le_of_lt heps) _ _
            (hpair 2 4 (by omega) (by omega) (by omega) n₂ n hc hn)
    · rcases hclass 3 (by omega) (by omega) with hc | hc | ⟨n₃, hc, -⟩
      · rw [hnil3 (Or.inl hc)] at hr
        exact absurd hr (List.not_mem_nil r)
      · rw [hnil3 (Or.inr hc)] at hr
        exact absurd hr (List.not_mem_nil r)
      · rw [hch3 n₃ hc, List.mem_singleton] at hr
        subst hr
        exact tol_of_incl_false eps (le_of_lt heps) _ _
          (hpair 3 4 (by omega) (by omega) (by omega) n₃ n hc hn))
  rw [he4]

theorem new_rand_is_valid_witness :
    (0 : ℚ) < 1 ∧ BlobGeno.is_valid 1 (BlobGeno.new_rand quietSrc) = true :=
  ⟨by decide, new_rand_is_valid quietSrc 1 (by decide)⟩

/-- C10: for every random stream, the genotype returned by
`BlobGeno::new_rand` holds limb nodes only at the root and the root's direct
children; every slot at index 5 or greater is empty or the parent sentinel,
because a candidate placed flush against its already-accepted parent box
always fails the inclusive overlap test and is discarded. -/
theorem new_rand_no_deep_limbs (src : RandSrc) (i : Nat) (h5 : 5 ≤ i) :
    (BlobGeno.new_rand src).vec_tree.slot i = none ∨
    (BlobGeno.new_rand src).vec_tree.slot i = some .Parent := by
  have G := new_rand_good src
  unfold NewRandGood at G
  exact G.2.2.2.2.2.2 i h5

unseal Rat.add Rat.mul Rat.sub Rat.inv in
theorem new_rand_no_deep_limbs_witness :
    5 ≤ 5 ∧ ((BlobGeno.new_rand quietSrc).vec_tree.slot 5 = none ∨
      (BlobGeno.new_rand quietSrc).vec_tree.slot 5 = some .Parent) :=
  ⟨by decide, new_rand_no_deep_limbs quietSrc 5 (by decide)⟩

/-- C2: in every genotype `new_rand` returns, every non-empty node with at
least one non-empty child (the root included) has exactly one of its four
child slots holding the parent sentinel. -/
theorem new_rand_unique_parent_sentinel (src : RandSrc) (i : Nat)
    (hne : ((BlobGeno.new_rand src).vec_tree.slot i).isSome = true)
    (hchild : ∃ j, j < 4 ∧
      ((BlobGeno.new_rand src).vec_tree.slot (4 * i + 1 + j)).isSome = true) :
    ∃ k, k < 4 ∧
      (BlobGeno.new_rand src).vec_tree.slot (4 * i + 1 + k) = some .Parent ∧
      ∀ j, j < 4 →
        (BlobGeno.new_rand src).vec_tree.slot (4 * i + 1 + j) = some .Parent →
        j = k := by
  have G := new_rand_good src
  unfold NewRandGood at G
  obtain ⟨hlen, hroot, ⟨s, hs1, hs4, hsent⟩, hclass, -, hmid, hhigh⟩ := G
  by_cases hi4 : 4 ≤ i
  · -- every child slot of such a node is out of range, hence empty
    exfalso
    obtain ⟨j, hj, hjs⟩ := hchild
    rw [QuadTree.slot_of_le
      (show (BlobGeno.new_rand src).vec_tree.nodes.length ≤ 4 * i + 1 + j by omega)] at hjs
    simp at hjs
  · by_cases hi0 : i = 0
    · subst hi0
      refine ⟨s - 1, by omega, ?_, ?_⟩
      · rw [show 4 * 0 + 1 + (s - 1) = s by omega]
        exact (hsent s hs1 hs4).mpr rfl
      · intro j hj hp
        have := (hsent (4 * 0 + 1 + j) (by omega) (by omega)).mp hp
        omega
    · obtain ⟨A, B⟩ := hmid i (by omega) (by omega)
      rcases hclass i (by omega) (by omega) with hc | hc | ⟨n, hc, -⟩
      · rw [hc] at hne
        simp at hne
      · exfalso
        obtain ⟨j, hj, hjs⟩ := hchild
        rw [B (Or.inr hc) j hj] at hjs
        simp at hjs
      · obtain ⟨k, hk4, hpat⟩ := A n hc
        refine ⟨k, hk4, ?_, ?_⟩
        · rw [hpat k hk4, if_pos rfl]
        · intro j hj hp
          rw [hpat j hj] at hp
          by_contra hne'
          rw [if_neg hne'] at hp
          exact Option.noConfusion hp

unseal Rat.add Rat.mul Rat.sub Rat.inv in
theorem new_rand_unique_parent_sentinel_witness :
    ((BlobGeno.new_rand quietSrc).vec_tree.slot 0).isSome = true ∧
    (∃ j, j < 4 ∧
      ((BlobGeno.new_rand quietSrc).vec_tree.slot (4 * 0 + 1 + j)).isSome = true) ∧
    ∃ k, k < 4 ∧
      (BlobGeno.new_rand quietSrc).vec_tree.slot (4 * 0 + 1 + k) = some .Parent ∧
      ∀ j, j < 4 →
        (BlobGeno.new_rand quietSrc).vec_tree.slot (4 * 0 + 1 + j) = some .Parent →
        j = k :=
  ⟨by decide, ⟨0, by decide, by decide⟩,
    new_rand_unique_parent_sentinel quietSrc 0 (by decide) ⟨0, by decide, by decide⟩⟩

end EvoSim
